import Mathlib

/-!
Shallow embedding of the TabTriage backend (src/backend/main.py and
src/backend/summarizer.py) and proofs about its capture/dedup, enrichment,
triage/auto-triage/undo and progress behaviour.

Modelling conventions:
* SQLite rows become Lean structures; the database is a record of lists kept
  in insertion (rowid) order.
* Timestamps are integers (seconds); the SQL check
  `captured_at > datetime('now','-1 day')` becomes `now - 86400 < capturedAt`.
* External collaborators (urllib hostname parsing, json.loads of the content
  payload, the classifier CLI) are parameters: an `Env` record of functions,
  or explicit oracle arguments.
* Python string operations used by the capture filters are re-implemented on
  `Char` lists so that every definition evaluates inside the kernel.
-/

namespace TabTriage

/-- Python `a or b` on optional strings: `None` and the empty string are falsy. -/
def pyOr (a b : Option String) : Option String :=
  match a with
  | some s => if s = "" then b else a
  | none => b

/-- Python `a or b` where the fallback is a plain string (`row["summary"] or row["title"]`). -/
def pyOrStr (a : Option String) (b : String) : String :=
  match a with
  | some s => if s = "" then b else s
  | none => b

/-- Substring test on character lists: Python `needle in hay`. -/
def subListAt : List Char → List Char → Bool
  | n, [] => n.isEmpty
  | n, c :: rest => n.isPrefixOf (c :: rest) || subListAt n rest

/-- Python `needle in hay` for strings. -/
def hasSubstr (needle hay : String) : Bool :=
  subListAt needle.data hay.data

/-- Python `s.endswith(suffix)`. -/
def strEndsWith (s suffix : String) : Bool :=
  suffix.data.reverse.isPrefixOf s.data.reverse

/-- Python `s.rstrip("/")`. -/
def rstripSlash (s : String) : String :=
  ⟨(s.data.reverse.dropWhile (fun c => c == '/')).reverse⟩

/-- Replace every occurrence of `needle` by `rep`, as Python `str.replace`
(for a nonempty needle; an empty needle leaves the string unchanged). The
fuel argument, instantiated with the length of the scanned list, makes the
recursion structural so that it evaluates inside the kernel; one unit of
fuel is spent per emitted position, which is enough since a match consumes
at least one character. -/
def replaceCharsAux (needle rep : List Char) : Nat → List Char → List Char
  | 0, l => l
  | _, [] => []
  | fuel + 1, c :: rest =>
    if needle ≠ [] ∧ needle.isPrefixOf (c :: rest) then
      rep ++ replaceCharsAux needle rep fuel ((c :: rest).drop needle.length)
    else
      c :: replaceCharsAux needle rep fuel rest

/-- Python `s.replace(needle, rep)`. -/
def strReplace (s needle rep : String) : String :=
  ⟨replaceCharsAux needle.data rep.data s.data.length s.data⟩

/-- Python `s[:n]`. -/
def strTake (s : String) (n : Nat) : String :=
  ⟨s.data.take n⟩

/-- Lookup in an association list modelling a Python dict. -/
def lookupKey {κ β : Type} [DecidableEq κ] (k : κ) : List (κ × β) → Option β
  | [] => none
  | p :: rest => if p.1 = k then some p.2 else lookupKey k rest

/-- Python `d[k] = v` on an association list modelling a dict. -/
def dictSet {κ β : Type} [DecidableEq κ] (l : List (κ × β)) (k : κ) (v : β) : List (κ × β) :=
  l.filter (fun p => p.1 ≠ k) ++ [(k, v)]

/-- Python `d.pop(k)` (just the removal part). -/
def dictDrop {κ β : Type} [DecidableEq κ] (l : List (κ × β)) (k : κ) : List (κ × β) :=
  l.filter (fun p => p.1 ≠ k)

-- ── Data model ─────────────────────────────────────────────────────────

/-- Row of the `sessions` table. -/
structure Session where
  id : Nat
  windowTitle : Option String
deriving DecidableEq, Repr

/-- Row of the `tabs` table. -/
structure Tab where
  id : Nat
  sessionId : Nat
  url : String
  title : String
  content : Option String
  favicon : Option String
  ogImage : Option String
  ogDescription : Option String
  media : Option String
  behaviorData : Option String
  summary : Option String
  suggestedCategory : Option String
  category : Option String
  tags : Option (List String)
  clusterId : Option String
  clusterLabel : Option String
  projectId : Option String
  userNote : Option String
  starred : Bool
  capturedAt : Int
  triagedAt : Option Int
deriving DecidableEq, Repr

/-- The SQLite database: sessions, tabs, ignored_domains. -/
structure DB where
  sessions : List Session
  tabs : List Tab
  ignoredDomains : List String
deriving DecidableEq, Repr

/-- One `_session_progress` record. -/
structure ProgressRec where
  total : Nat
  completed : Nat
  phase : String
  clusters : Nat
deriving DecidableEq, Repr

/-- One snapshot entry inside an undo batch. -/
structure PreState where
  tabId : Nat
  category : Option String
  starred : Bool
  triagedAt : Option Int
deriving DecidableEq, Repr

/-- One `_undo_buffer` entry: pre-auto-triage snapshot plus creation time. -/
structure UndoBatch where
  preState : List PreState
  timestamp : Int
deriving DecidableEq, Repr

/-- Whole process state: the database plus the module-level mutable maps. -/
structure ServerState where
  db : DB
  progress : List (Nat × ProgressRec)
  pendingClose : List String
  undoBuffer : List (String × UndoBatch)
  bgTasks : List (Nat × List Nat)
  nextSessionId : Nat
  nextTabId : Nat
deriving DecidableEq, Repr

/-- Structured content payload produced by `json.loads(tab.content)` when it parses. -/
structure ParsedPayload where
  text : String
  ogImage : Option String
  ogDescription : Option String
  media : Option String
deriving DecidableEq, Repr

/-- External collaborators of the capture path: urllib hostname parsing,
json parsing of the content payload, and the configured content cap. -/
structure Env where
  hostname : String → Option String
  parseJson : String → Option ParsedPayload
  maxContent : Nat

/-- One submission in a capture request (model of `TabData`). -/
structure TabData where
  url : String
  title : String
  content : Option String
  favicon : Option String
  ogImage : Option String
  ogDescription : Option String
  behavior : Option String
deriving DecidableEq, Repr

/-- Model of `CaptureRequest`. -/
structure CaptureReq where
  windowTitle : Option String
  tabs : List TabData
deriving DecidableEq, Repr

/-- Body of the JSON response of `/api/capture`. -/
structure CaptureResult where
  sessionId : Option Nat
  tabCount : Nat
  skipped : Nat
  status : String
deriving DecidableEq, Repr

-- ── Capture (`capture_tabs` in main.py) ────────────────────────────────

/-- Model of `_extract_domain`: `urlparse(url).hostname.replace("www.", "")`,
with any parsing failure (`hostname` is None) collapsing to the empty string. -/
def extractDomain (env : Env) (url : String) : String :=
  match env.hostname url with
  | some h => strReplace h "www." ""
  | none => ""

/-- Self-reference filter: the URL is the tool's own triage page, detected by
`"TabTriage/index.html" in url or url.rstrip("/").endswith(":5111")`. -/
def isSelfRefUrl (url : String) : Bool :=
  hasSubstr "TabTriage/index.html" url || strEndsWith (rstripSlash url) ":5111"

/-- Ignored-domain filter: a nonempty extracted domain present in `ignored_domains`. -/
def isIgnoredDomain (env : Env) (db : DB) (url : String) : Bool :=
  let d := extractDomain env url
  d != "" && db.ignoredDomains.contains d

/-- Recency filter: some tab with this exact URL has
`captured_at > datetime('now', '-1 day')`. -/
def hasRecentCapture (db : DB) (url : String) (now : Int) : Bool :=
  db.tabs.any (fun t => t.url == url && now - 86400 < t.capturedAt)

/-- The content/og fields stored for a freshly inserted tab. -/
structure ContentFields where
  content : Option String
  ogImage : Option String
  ogDescription : Option String
  media : Option String
deriving DecidableEq, Repr

/-- Unpacking of a submission's content: a JSON object payload is split into
its fields, any other string is stored verbatim; both are truncated to
`MAX_CONTENT`. An absent or empty content string stores no content. -/
def parseContentFields (env : Env) (sub : TabData) : ContentFields :=
  let base : ContentFields :=
    { content := none, ogImage := sub.ogImage, ogDescription := sub.ogDescription, media := none }
  match sub.content with
  | none => base
  | some s =>
    if s = "" then base
    else
      match env.parseJson s with
      | some p =>
        { content := some (strTake p.text env.maxContent)
          ogImage := pyOr sub.ogImage p.ogImage
          ogDescription := pyOr sub.ogDescription p.ogDescription
          media := p.media }
      | none => { base with content := some (strTake s env.maxContent) }

/-- The tab row inserted by the capture loop: enrichment and triage fields
all start out NULL, `starred` defaults to false. -/
def freshTab (id sid : Nat) (sub : TabData) (cf : ContentFields) (now : Int) : Tab :=
  { id := id, sessionId := sid, url := sub.url, title := sub.title,
    content := cf.content, favicon := sub.favicon, ogImage := cf.ogImage,
    ogDescription := cf.ogDescription, media := cf.media, behaviorData := sub.behavior,
    summary := none, suggestedCategory := none, category := none, tags := none,
    clusterId := none, clusterLabel := none, projectId := none, userNote := none,
    starred := false, capturedAt := now, triagedAt := none }

/-- Reason a submission is skipped, in the order the filters are applied. -/
inductive SkipReason
  | selfRef
  | ignoredDomain
  | intraBatchDup
  | recentDup
deriving DecidableEq, Repr

/-- Specification-side classifier: the first matching filter, in the order
self-reference, ignored-domain, intra-batch duplicate, 24h recency. -/
def skipReason (env : Env) (db : DB) (seen : List String) (url : String)
    (now : Int) : Option SkipReason :=
  if isSelfRefUrl url then some SkipReason.selfRef
  else if isIgnoredDomain env db url then some SkipReason.ignoredDomain
  else if seen.contains url then some SkipReason.intraBatchDup
  else if hasRecentCapture db url now then some SkipReason.recentDup
  else none

/-- Running state of the capture loop over the submission list. -/
structure LoopState where
  db : DB
  seen : List String
  tabIds : List Nat
  skipped : Nat
  nextTabId : Nat
deriving DecidableEq, Repr

/-- One iteration of the capture loop, translated from the body of the
`for tab in req.tabs` loop: the four filters in source order (`seen_urls.add`
happens after the intra-batch check and before the recency check), then the
INSERT of the surviving submission. -/
def captureStep (env : Env) (now : Int) (sid : Nat) (ls : LoopState)
    (sub : TabData) : LoopState :=
  if isSelfRefUrl sub.url then
    { ls with skipped := ls.skipped + 1 }
  else if isIgnoredDomain env ls.db sub.url then
    { ls with skipped := ls.skipped + 1 }
  else if ls.seen.contains sub.url then
    { ls with skipped := ls.skipped + 1 }
  else
    let seen' := ls.seen ++ [sub.url]
    if hasRecentCapture ls.db sub.url now then
      { ls with seen := seen', skipped := ls.skipped + 1 }
    else
      let t := freshTab ls.nextTabId sid sub (parseContentFields env sub) now
      { db := { ls.db with tabs := ls.db.tabs ++ [t] }
        seen := seen'
        tabIds := ls.tabIds ++ [ls.nextTabId]
        skipped := ls.skipped
        nextTabId := ls.nextTabId + 1 }

/-- Loop state at the start of the capture loop: the session row has just
been inserted, nothing seen, nothing skipped. -/
def captureInit (st : ServerState) (req : CaptureReq) : LoopState :=
  { db := { st.db with
      sessions := st.db.sessions ++ [⟨st.nextSessionId, req.windowTitle⟩] },
    seen := [], tabIds := [], skipped := 0, nextTabId := st.nextTabId }

/-- The whole `for tab in req.tabs` filter loop. -/
def captureLoop (env : Env) (st : ServerState) (req : CaptureReq) (now : Int) : LoopState :=
  req.tabs.foldl (captureStep env now st.nextSessionId) (captureInit st req)

/-- Model of `capture_tabs`: insert a session, run the filter loop, then
either delete the empty session and report `all_duplicates`, or initialise
the progress record, hand the tab ids to the background enrichment task and
report `captured`. -/
def capture_tabs (env : Env) (st : ServerState) (req : CaptureReq)
    (now : Int) : ServerState × CaptureResult :=
  if (captureLoop env st req now).tabIds.isEmpty then
    ({ st with
        db := { (captureLoop env st req now).db with
          sessions := (captureLoop env st req now).db.sessions.filter
            (fun s => s.id ≠ st.nextSessionId) }
        nextSessionId := st.nextSessionId + 1
        nextTabId := (captureLoop env st req now).nextTabId },
      { sessionId := none, tabCount := 0,
        skipped := (captureLoop env st req now).skipped, status := "all_duplicates" })
  else
    ({ st with
        db := (captureLoop env st req now).db
        progress := dictSet st.progress st.nextSessionId
          { total := (captureLoop env st req now).tabIds.length, completed := 0,
            phase := "summarizing", clusters := 0 }
        bgTasks := st.bgTasks ++ [(st.nextSessionId, (captureLoop env st req now).tabIds)]
        nextSessionId := st.nextSessionId + 1
        nextTabId := (captureLoop env st req now).nextTabId },
      { sessionId := some st.nextSessionId,
        tabCount := (captureLoop env st req now).tabIds.length,
        skipped := (captureLoop env st req now).skipped, status := "captured" })

-- ── Triage (`_triage_one`, `triage_auto`, `triage_auto_undo`) ──────────

/-- Model of the `TriageItem` request body. -/
structure TriageItem where
  tabId : Nat
  category : Option String
  projectId : Option String
  userNote : Option String
  tags : Option (List String)
  starred : Option Bool
  notionTarget : Option String
deriving DecidableEq, Repr

/-- The accumulated UPDATE of `_triage_one`: only the fields present in the
item are written, and a present category additionally stamps `triaged_at`. -/
def applyTriageUpdates (item : TriageItem) (now : Int) (t : Tab) : Tab :=
  let t1 := match item.category with
    | some c => { t with category := some c }
    | none => t
  let t2 := match item.projectId with
    | some p => { t1 with projectId := some p }
    | none => t1
  let t3 := match item.userNote with
    | some n => { t2 with userNote := some n }
    | none => t2
  let t4 := match item.tags with
    | some ts => { t3 with tags := some ts }
    | none => t3
  let t5 := match item.starred with
    | some b => { t4 with starred := b }
    | none => t4
  match item.category with
  | some _ => { t5 with triagedAt := some now }
  | none => t5

/-- One call into the external note-forwarding service. -/
inductive NotionOp
  | createLink (title url summary : String) (content : Option String)
  | createBacklogCard (title summary url : String)
  | appendToProject (projectId title url summary : String)
  | createTaskToday (title url summary : String)
  | createTaskSomeday (title url summary : String)
deriving DecidableEq, Repr

/-- Forwarding side of `_triage_one`: at most one external call, selected by
`notion_target`, suppressed entirely when the category is `dismiss` (or the
target is falsy), built from the row read before the update. -/
def routeNotion (item : TriageItem) (row : Tab) : List NotionOp :=
  match item.notionTarget with
  | none => []
  | some target =>
    if target = "" then []
    else if item.category = some "dismiss" then []
    else
      let summary := pyOrStr row.summary row.title
      if target = "links" then [NotionOp.createLink row.title row.url summary row.content]
      else if target = "parken" then [NotionOp.createBacklogCard row.title summary row.url]
      else if target = "project" then
        match item.projectId with
        | some p => [NotionOp.appendToProject p row.title row.url summary]
        | none => []
      else if target = "todo-today" then [NotionOp.createTaskToday row.title row.url summary]
      else if target = "todo-someday" then [NotionOp.createTaskSomeday row.title row.url summary]
      else []

/-- Per-item result of `_triage_one`. -/
inductive TriageOutcome
  | notFound
  | triaged (ops : List NotionOp)
deriving DecidableEq, Repr

/-- `SELECT ... FROM tabs WHERE id = ?` (first row). -/
def lookupTab (db : DB) (tid : Nat) : Option Tab :=
  db.tabs.find? (fun t => t.id == tid)

/-- The per-row effect of the `_triage_one` UPDATE. -/
def triageTabStep (item : TriageItem) (now : Int) (t : Tab) : Tab :=
  if t.id == item.tabId then applyTriageUpdates item now t else t

/-- Model of `_triage_one`: partial UPDATE of the addressed tab, then the
optional forwarding built from the pre-update row. -/
def triage_one (db : DB) (item : TriageItem) (now : Int) : DB × TriageOutcome :=
  match lookupTab db item.tabId with
  | none => (db, TriageOutcome.notFound)
  | some row =>
    let db' : DB := { db with tabs := db.tabs.map (triageTabStep item now) }
    (db', TriageOutcome.triaged (routeNotion item row))

/-- Model of `triage_bulk`: `_triage_one` applied sequentially. -/
def triage_bulk (db : DB) (items : List TriageItem) (now : Int) : DB :=
  items.foldl (fun d i => (triage_one d i now).1) db

/-- `UPDATE tabs SET starred = ? WHERE id = ?` (`toggle_star`). -/
def toggle_star (db : DB) (tid : Nat) (b : Bool) : DB :=
  { db with tabs := db.tabs.map (fun t => if t.id == tid then { t with starred := b } else t) }

/-- The auto-triage tab selection:
`triaged_at IS NULL AND suggested_category IS NOT NULL`, paired with the
suggested category. -/
def selectedTabs (db : DB) : List (Tab × String) :=
  db.tabs.filterMap (fun t =>
    match t.triagedAt, t.suggestedCategory with
    | none, some c => some (t, c)
    | _, _ => none)

/-- The item auto-triage derives from a selected tab: its suggested category,
plus `starred := true` when that category is `actionable`. -/
def autoItem (t : Tab) (c : String) : TriageItem :=
  { tabId := t.id, category := some c, projectId := none, userNote := none,
    tags := none, starred := if c = "actionable" then some true else none,
    notionTarget := none }

/-- Lazy TTL purge of the undo buffer: drop batches with `timestamp < now - 300`. -/
def purgeUndo (buf : List (String × UndoBatch)) (now : Int) : List (String × UndoBatch) :=
  buf.filter (fun p => ¬ (p.2.timestamp < now - 300))

/-- Idempotent enqueue into `_pending_close_urls` (append only when absent). -/
def enqueueCloseUrls (pending : List String) (urls : List String) : List String :=
  urls.foldl (fun acc u => if u ∈ acc then acc else acc ++ [u]) pending

/-- Body of the JSON response of `/api/triage/auto`. -/
structure AutoResult where
  total : Nat
  saved : Nat
  starred : Nat
  archived : Nat
  closeRequested : Nat
  batchId : Option String
deriving DecidableEq, Repr

/-- The triage items auto-triage derives from the selected tabs. -/
def autoItems (db : DB) : List TriageItem :=
  (selectedTabs db).map (fun p => autoItem p.1 p.2)

/-- The pre-triage snapshot recorded into the undo batch. -/
def autoPreState (db : DB) : List PreState :=
  (selectedTabs db).map (fun p => PreState.mk p.1.id p.1.category p.1.starred p.1.triagedAt)

/-- Ids of the selected tabs whose suggested category is `archive`. -/
def autoCloseIds (db : DB) : List Nat :=
  ((selectedTabs db).filter (fun p => p.2 = "archive")).map (fun p => p.1.id)

/-- The database after applying every derived item through `_triage_one`. -/
def autoDB (db : DB) (now : Int) : DB :=
  triage_bulk db (autoItems db) now

/-- URLs of the archive tabs, looked up after the triage writes. -/
def autoCloseUrls (db : DB) (now : Int) : List String :=
  (autoCloseIds db).filterMap (fun tid => (lookupTab (autoDB db now) tid).map Tab.url)

/-- Model of `triage_auto`: select the eligible tabs, snapshot them into a
fresh undo batch, purge expired batches, triage every selected tab to its
suggested category through `_triage_one`, and enqueue the archive tabs into
the pending-close list. `newBatchId` stands for the random uuid. -/
def triage_auto (st : ServerState) (now : Int) (newBatchId : String) :
    ServerState × AutoResult :=
  if (selectedTabs st.db).isEmpty then
    (st, { total := 0, saved := 0, starred := 0, archived := 0,
           closeRequested := 0, batchId := none })
  else
    ({ st with
        db := autoDB st.db now
        undoBuffer := purgeUndo
          (dictSet st.undoBuffer newBatchId ⟨autoPreState st.db, now⟩) now
        pendingClose := enqueueCloseUrls st.pendingClose (autoCloseUrls st.db now) },
      { total := (autoItems st.db).length
        saved := ((selectedTabs st.db).filter (fun p => p.2 ≠ "archive")).length
        starred := ((selectedTabs st.db).filter (fun p => p.2 = "actionable")).length
        archived := ((selectedTabs st.db).filter (fun p => p.2 = "archive")).length
        closeRequested := (autoCloseIds st.db).length
        batchId := some newBatchId })

/-- Restoration of one snapshot entry:
`UPDATE tabs SET category = ?, starred = ?, triaged_at = ? WHERE id = ?`. -/
def restoreEntry (e : PreState) (t : Tab) : Tab :=
  if t.id == e.tabId then
    { t with category := e.category, starred := e.starred, triagedAt := e.triagedAt }
  else t

/-- One iteration of the undo loop: restore the snapshot entry, then remove
the tab's URL from the pending-close list if it is queued there. -/
def undoStep (acc : DB × List String) (e : PreState) : DB × List String :=
  let d : DB := { acc.1 with tabs := acc.1.tabs.map (restoreEntry e) }
  let pending := match lookupTab d e.tabId with
    | some t => acc.2.erase t.url
    | none => acc.2
  (d, pending)

/-- Result of `/api/triage/auto/undo`. -/
inductive UndoOutcome
  | notFound
  | undone (restored : Nat)
deriving DecidableEq, Repr

/-- Model of `triage_auto_undo`: a falsy or unknown batch id fails not-found;
otherwise the batch is popped, every snapshot entry restored and its URL
dequeued from pending-close. -/
def triage_auto_undo (st : ServerState) (batchId : Option String) :
    ServerState × UndoOutcome :=
  match batchId with
  | none => (st, UndoOutcome.notFound)
  | some bid =>
    if bid = "" then (st, UndoOutcome.notFound)
    else
      match lookupKey bid st.undoBuffer with
      | none => (st, UndoOutcome.notFound)
      | some batch =>
        let r := batch.preState.foldl undoStep (st.db, st.pendingClose)
        ({ st with
            db := r.1
            pendingClose := r.2
            undoBuffer := dictDrop st.undoBuffer bid },
          UndoOutcome.undone batch.preState.length)

-- ── Enrichment: summarization persist and clustering ───────────────────

/-- Structured result of `summarize_tab` (the classifier collaborator). -/
structure SummaryResult where
  summary : String
  suggestedCategory : String
  tags : List String
deriving DecidableEq, Repr

/-- The tags parameter bound into the UPDATE:
`json.dumps(result["tags"]) if result.get("tags") else None` — an empty tag
list becomes NULL. -/
def tagsValue (s : SummaryResult) : Option (List String) :=
  if s.tags.isEmpty then none else some s.tags

/-- Per-tab persist of the capture enrichment phase
(`_summarize_and_cluster`):
`SET summary = ?, suggested_category = ?, tags = COALESCE(tags, ?)`. -/
def persistSummaryCapture (s : SummaryResult) (t : Tab) : Tab :=
  { t with summary := some s.summary, suggestedCategory := some s.suggestedCategory,
           tags := t.tags <|> tagsValue s }

/-- Per-tab persist of the re-summarize and re-extract flows
(`re_summarize_tab`, `update_content`, `request_re_extract`,
`_batch_re_extract`, `_batch_re_summarize`):
`SET summary = ?, suggested_category = ?, tags = COALESCE(?, tags)`. -/
def persistSummaryRe (s : SummaryResult) (t : Tab) : Tab :=
  { t with summary := some s.summary, suggestedCategory := some s.suggestedCategory,
           tags := tagsValue s <|> t.tags }

/-- One tab of the capture summarization loop, applied to the database. -/
def summarizeStep (db : DB) (tid : Nat) (s : SummaryResult) : DB :=
  { db with tabs := db.tabs.map (fun t =>
      if t.id == tid then persistSummaryCapture s t else t) }

/-- One tab of a re-summarize flow, applied to the database. -/
def reSummarizeStep (db : DB) (tid : Nat) (s : SummaryResult) : DB :=
  { db with tabs := db.tabs.map (fun t =>
      if t.id == tid then persistSummaryRe s t else t) }

/-- The summarization phase of `_summarize_and_cluster`: for each captured
tab id in order, look the row up (a vanished row is skipped) and persist the
classifier result. `oracle` stands for `summarize_tab`. -/
def summarizePhase (db : DB) (tabIds : List Nat) (oracle : Tab → SummaryResult) : DB :=
  tabIds.foldl (fun d tid =>
    match lookupTab d tid with
    | none => d
    | some row => summarizeStep d tid (oracle row)) db

/-- Model of `_batch_re_summarize` (also the shape of `_batch_re_extract`'s
summarize part): every listed tab is re-summarized through the re-flow
persist. -/
def batch_re_summarize (db : DB) (items : List (Nat × SummaryResult)) : DB :=
  items.foldl (fun d p => reSummarizeStep d p.1 p.2) db

/-- One raw entry of the clustering JSON array (`c.get(...)` fields). -/
structure RawCluster where
  tabId : Option Nat
  clusterId : Option String
  clusterLabel : Option String
  suggestedProjectId : Option String
deriving DecidableEq, Repr

/-- One sanitized cluster assignment returned by `_parse_clusters`. -/
structure ClusterAssign where
  tabId : Nat
  clusterId : String
  clusterLabel : String
  suggestedProjectId : Option String
deriving DecidableEq, Repr

/-- Model of `_parse_clusters` after JSON decoding: keep exactly the entries
whose `tab_id` is an id of the given tab set, defaulting the label fields. -/
def parse_clusters (clusters : List RawCluster) (tabs : List Tab) : List ClusterAssign :=
  clusters.filterMap (fun c =>
    match c.tabId with
    | some tid =>
      if (tabs.map Tab.id).contains tid then
        some { tabId := tid, clusterId := c.clusterId.getD "other",
               clusterLabel := c.clusterLabel.getD "Sonstiges",
               suggestedProjectId := c.suggestedProjectId }
      else none
    | none => none)

/-- Application of one cluster assignment:
`SET cluster_id = ?, cluster_label = ?, project_id = COALESCE(project_id, ?)`. -/
def applyClusterAssign (db : DB) (c : ClusterAssign) : DB :=
  { db with tabs := db.tabs.map (fun t =>
      if t.id == c.tabId then
        { t with clusterId := some c.clusterId, clusterLabel := some c.clusterLabel,
                 projectId := t.projectId <|> c.suggestedProjectId }
      else t) }

/-- The clustering phase of `_summarize_and_cluster`: `raw = none` stands for
a failed cluster call (`cluster_tabs` returned `[]`); a parsed response is
filtered by `_parse_clusters` against the session's tabs, and the surviving
assignments are applied (the `if clusters:` guard writes nothing on empty). -/
def clusteringPhase (db : DB) (sessionId : Nat) (raw : Option (List RawCluster)) : DB :=
  let sessionTabs := db.tabs.filter (fun t => t.sessionId == sessionId)
  let clusters := match raw with
    | none => []
    | some cs => parse_clusters cs sessionTabs
  if clusters.isEmpty then db
  else clusters.foldl applyClusterAssign db

-- ── Progress endpoints ─────────────────────────────────────────────────

/-- The record reported for a session id without progress state. -/
def doneProgress : ProgressRec :=
  { total := 0, completed := 0, phase := "done", clusters := 0 }

/-- Model of `get_capture_progress`: an unknown session id reports the
all-done record instead of failing. -/
def get_capture_progress (progress : List (Nat × ProgressRec)) (sid : Nat) : ProgressRec :=
  match lookupKey sid progress with
  | none => doneProgress
  | some p => p

/-- Model of the SSE generator of `stream_capture_progress`: given the
progress-map lookups observed at the successive polls, the list of emitted
records and whether the stream terminated within those polls. -/
def streamProgress : List (Option ProgressRec) → List ProgressRec × Bool
  | [] => ([], false)
  | none :: _ => ([doneProgress], true)
  | some p :: rest =>
    if p.phase = "done" then ([p], true)
    else
      let r := streamProgress rest
      (p :: r.1, r.2)

-- ── The triaged-iff-categorized invariant (§3 of the data model) ───────

/-- Per-tab invariant: `triaged_at` is non-null iff a category has been set. -/
@[reducible] def TabInv (t : Tab) : Prop :=
  t.triagedAt = none ↔ t.category = none

/-- The invariant over every tab row. -/
@[reducible] def DBInv (db : DB) : Prop :=
  ∀ t ∈ db.tabs, TabInv t

/-- Every undo-buffer snapshot entry pairs `category` and `triaged_at` the
same way (it was taken from a database satisfying `DBInv`). -/
@[reducible] def BufInv (buf : List (String × UndoBatch)) : Prop :=
  ∀ p ∈ buf, ∀ e ∈ p.2.preState, (e.triagedAt = none ↔ e.category = none)

/-- The process-wide invariant. -/
@[reducible] def StateInv (st : ServerState) : Prop :=
  DBInv st.db ∧ BufInv st.undoBuffer

/-- Membership of a raw cluster entry's `tab_id` in a tab set (the guard of
`_parse_clusters`). -/
def inTabSet (tabs : List Tab) (c : RawCluster) : Bool :=
  match c.tabId with
  | some tid => (tabs.map Tab.id).contains tid
  | none => false

-- ── Concrete instances used by witnesses and counterexamples ───────────

/-- Concrete collaborator environment. -/
def envEx : Env :=
  { hostname := fun _ => some "example.com", parseJson := fun _ => none,
    maxContent := 50000 }

/-- Fresh server state. -/
def emptyState : ServerState :=
  { db := { sessions := [], tabs := [], ignoredDomains := [] },
    progress := [], pendingClose := [], undoBuffer := [], bgTasks := [],
    nextSessionId := 1, nextTabId := 1 }

/-- Concrete capture submission. -/
def subEx : TabData :=
  { url := "https://example.com/a", title := "A", content := none, favicon := none,
    ogImage := none, ogDescription := none, behavior := none }

/-- Concrete stored tab with a pre-existing note and tag set. -/
def tabEx : Tab :=
  { id := 1, sessionId := 1, url := "https://example.com/a", title := "A",
    content := none, favicon := none, ogImage := none, ogDescription := none,
    media := none, behaviorData := none, summary := none, suggestedCategory := none,
    category := none, tags := some ["alt"], clusterId := none, clusterLabel := none,
    projectId := none, userNote := some "Notiz", starred := false,
    capturedAt := 0, triagedAt := none }

/-- Classifier result carrying fresh tags. -/
def sumNeu : SummaryResult :=
  { summary := "Neu", suggestedCategory := "read-later", tags := ["neu"] }

/-- Database with the single tagged tab. -/
def dbTagged : DB :=
  { sessions := [⟨1, none⟩], tabs := [tabEx], ignoredDomains := [] }

/-- Untriaged tabs with the three suggested categories of the auto-triage test. -/
def tabRL : Tab :=
  { tabEx with id := 11, tags := none, userNote := none,
               suggestedCategory := some "read-later" }

/-- Untriaged tab suggested `actionable`. -/
def tabAct : Tab :=
  { tabEx with id := 12, url := "https://example.com/b", tags := none,
               userNote := none, suggestedCategory := some "actionable" }

/-- Untriaged tab suggested `archive`. -/
def tabArc : Tab :=
  { tabEx with id := 13, url := "https://example.com/c", tags := none,
               userNote := none, suggestedCategory := some "archive" }

/-- State holding the three auto-triage candidates. -/
def stAuto : ServerState :=
  { emptyState with
      db := { sessions := [⟨1, none⟩], tabs := [tabRL, tabAct, tabArc],
              ignoredDomains := [] } }

/-- Snapshot entry for the undo witness. -/
def preEx : PreState :=
  { tabId := 12, category := none, starred := false, triagedAt := none }

/-- The actionable tab after it has been auto-triaged. -/
def tabActDone : Tab :=
  { tabAct with category := some "actionable", starred := true, triagedAt := some 5 }

/-- State holding a triaged tab, its pending-close entry and an undo batch. -/
def stUndo : ServerState :=
  { emptyState with
      db := { sessions := [], tabs := [tabActDone], ignoredDomains := [] },
      pendingClose := ["https://example.com/b"],
      undoBuffer := [("bat1", { preState := [preEx], timestamp := 100 })] }

/-- Undo batch that is expired at time 400 but was never purged. -/
def batchOld : UndoBatch :=
  { preState := [{ tabId := 1, category := none, starred := false, triagedAt := none }],
    timestamp := 0 }

/-- State holding only the expired batch. -/
def stExpired : ServerState :=
  { emptyState with
      db := dbTagged,
      pendingClose := ["https://example.com/a"],
      undoBuffer := [("b1", batchOld)],
      nextSessionId := 2,
      nextTabId := 2 }

/-- Triage request carrying only a category. -/
def itemActEx : TriageItem :=
  { tabId := 1, category := some "actionable", projectId := none, userNote := none,
    tags := none, starred := none, notionTarget := none }

/-- Triage request carrying the dismiss pseudo-category and a forwarding target. -/
def itemDismissEx : TriageItem :=
  { tabId := 1, category := some "dismiss", projectId := none, userNote := none,
    tags := none, starred := none, notionTarget := some "links" }

-- ═══════════════════════════════════════════════════════════════════════
-- Theorems
-- ═══════════════════════════════════════════════════════════════════════

-- ── Generic helper lemmas ──────────────────────────────────────────────

theorem filterMap_filter_eq {α β : Type} (f : α → Option β) (p : α → Bool) (l : List α)
    (h : ∀ x, p x = false → f x = none) :
    l.filterMap f = (l.filter p).filterMap f := by
  induction l with
  | nil => rfl
  | cons a rest ih =>
    rw [List.filter_cons]
    by_cases hp : p a = true
    · simp only [hp, if_true, List.filterMap_cons, ih]
    · have hpf : p a = false := by simpa using hp
      simp only [List.filterMap_cons, h a hpf, hpf, Bool.false_eq_true, if_false, ih]

theorem foldl_tabs_map {α : Type} (g : α → Tab → Tab) (items : List α) (db : DB) :
    items.foldl (fun d a => { d with tabs := d.tabs.map (g a) }) db =
      { db with tabs := db.tabs.map (fun t => items.foldl (fun t a => g a t) t) } := by
  induction items generalizing db with
  | nil => simp
  | cons a rest ih =>
    simp only [List.foldl_cons]
    rw [ih]
    simp [List.map_map, Function.comp_def]

theorem find?_map_comm (f : Tab → Tab) (tid : Nat) (hf : ∀ t, (f t).id = t.id)
    (l : List Tab) :
    (l.map f).find? (fun t => t.id == tid) = (l.find? (fun t => t.id == tid)).map f := by
  induction l with
  | nil => rfl
  | cons t rest ih =>
    simp only [List.map_cons, List.find?_cons, hf t]
    by_cases h : (t.id == tid) = true
    · simp [h]
    · simp only [Bool.not_eq_true] at h
      simp [h, ih]

theorem find?_id_of_nodup (l : List Tab) (t : Tab) (hnd : (l.map Tab.id).Nodup)
    (ht : t ∈ l) : l.find? (fun u => u.id == t.id) = some t := by
  induction l with
  | nil => cases ht
  | cons u rest ih =>
    rcases List.mem_cons.mp ht with h | h
    · subst h
      simp [List.find?_cons]
    · have hne : u.id ≠ t.id := by
        intro he
        have : t.id ∈ rest.map Tab.id := List.mem_map_of_mem Tab.id h
        rw [← he] at this
        exact (List.nodup_cons.mp (by simpa using hnd)).1 this
      have : (u.id == t.id) = false := by simp [hne]
      simp only [List.find?_cons, this]
      exact ih (List.nodup_cons.mp (by simpa using hnd)).2 h

-- ── Field lemmas about the `_triage_one` UPDATE ────────────────────────

theorem applyTriageUpdates_id (item : TriageItem) (now : Int) (t : Tab) :
    (applyTriageUpdates item now t).id = t.id := by
  unfold applyTriageUpdates
  cases item.category <;> cases item.projectId <;> cases item.userNote <;>
    cases item.tags <;> cases item.starred <;> rfl

theorem applyTriageUpdates_url (item : TriageItem) (now : Int) (t : Tab) :
    (applyTriageUpdates item now t).url = t.url := by
  unfold applyTriageUpdates
  cases item.category <;> cases item.projectId <;> cases item.userNote <;>
    cases item.tags <;> cases item.starred <;> rfl

theorem applyTriageUpdates_userNote (item : TriageItem) (now : Int) (t : Tab)
    (h : item.userNote = none) :
    (applyTriageUpdates item now t).userNote = t.userNote := by
  unfold applyTriageUpdates
  rw [h]
  cases item.category <;> cases item.projectId <;> cases item.tags <;>
    cases item.starred <;> rfl

theorem applyTriageUpdates_tags (item : TriageItem) (now : Int) (t : Tab)
    (h : item.tags = none) :
    (applyTriageUpdates item now t).tags = t.tags := by
  unfold applyTriageUpdates
  rw [h]
  cases item.category <;> cases item.projectId <;> cases item.userNote <;>
    cases item.starred <;> rfl

theorem applyTriageUpdates_projectId (item : TriageItem) (now : Int) (t : Tab)
    (h : item.projectId = none) :
    (applyTriageUpdates item now t).projectId = t.projectId := by
  unfold applyTriageUpdates
  rw [h]
  cases item.category <;> cases item.userNote <;> cases item.tags <;>
    cases item.starred <;> rfl

theorem applyTriageUpdates_starred (item : TriageItem) (now : Int) (t : Tab)
    (h : item.starred = none) :
    (applyTriageUpdates item now t).starred = t.starred := by
  unfold applyTriageUpdates
  rw [h]
  cases item.category <;> cases item.projectId <;> cases item.userNote <;>
    cases item.tags <;> rfl

theorem applyTriageUpdates_starred_some (item : TriageItem) (now : Int) (t : Tab)
    (b : Bool) (h : item.starred = some b) :
    (applyTriageUpdates item now t).starred = b := by
  unfold applyTriageUpdates
  rw [h]
  cases item.category <;> cases item.projectId <;> cases item.userNote <;>
    cases item.tags <;> rfl

theorem applyTriageUpdates_category_none (item : TriageItem) (now : Int) (t : Tab)
    (h : item.category = none) :
    (applyTriageUpdates item now t).category = t.category ∧
      (applyTriageUpdates item now t).triagedAt = t.triagedAt := by
  unfold applyTriageUpdates
  rw [h]
  cases item.projectId <;> cases item.userNote <;> cases item.tags <;>
    cases item.starred <;> exact ⟨rfl, rfl⟩

theorem applyTriageUpdates_category_some (item : TriageItem) (now : Int) (t : Tab)
    (c : String) (h : item.category = some c) :
    (applyTriageUpdates item now t).category = some c ∧
      (applyTriageUpdates item now t).triagedAt = some now := by
  unfold applyTriageUpdates
  rw [h]
  cases item.projectId <;> cases item.userNote <;> cases item.tags <;>
    cases item.starred <;> exact ⟨rfl, rfl⟩

theorem triageTabStep_id (item : TriageItem) (now : Int) (t : Tab) :
    (triageTabStep item now t).id = t.id := by
  unfold triageTabStep
  by_cases h : (t.id == item.tabId) = true
  · rw [if_pos h, applyTriageUpdates_id]
  · rw [if_neg h]

theorem triage_one_db_tabs (db : DB) (item : TriageItem) (now : Int) :
    (triage_one db item now).1.tabs = db.tabs.map (triageTabStep item now) := by
  unfold triage_one
  cases h : lookupTab db item.tabId with
  | none =>
    simp only []
    unfold lookupTab at h
    have := List.find?_eq_none.mp h
    calc db.tabs = db.tabs.map id := (List.map_id db.tabs).symm
      _ = db.tabs.map (triageTabStep item now) := by
        apply List.map_congr_left
        intro t ht
        have hne : (t.id == item.tabId) = false := by
          have := this t ht
          simpa using this
        unfold triageTabStep
        rw [hne]
        rfl
  | some row => rfl

theorem triage_one_lookup (db : DB) (item : TriageItem) (now : Int) :
    lookupTab (triage_one db item now).1 item.tabId =
      (lookupTab db item.tabId).map (triageTabStep item now) := by
  unfold lookupTab
  rw [triage_one_db_tabs]
  exact find?_map_comm (triageTabStep item now) item.tabId (triageTabStep_id item now) db.tabs

-- ── C3: single-triage partial update semantics ─────────────────────────

/-- C3: `_triage_one` applies only the fields present in the request (absent
fields leave existing values untouched), a present category — including the
`dismiss` pseudo-category — always stamps `triaged_at` with the call time,
and with category `dismiss` nothing is forwarded to the note service. -/
theorem triage_one_partial_update :
    ∀ (db : DB) (item : TriageItem) (now : Int) (row : Tab),
      lookupTab db item.tabId = some row →
      (lookupTab (triage_one db item now).1 item.tabId
          = some (applyTriageUpdates item now row)) ∧
      (item.category = none →
        (applyTriageUpdates item now row).category = row.category ∧
        (applyTriageUpdates item now row).triagedAt = row.triagedAt) ∧
      (item.userNote = none →
        (applyTriageUpdates item now row).userNote = row.userNote) ∧
      (item.tags = none → (applyTriageUpdates item now row).tags = row.tags) ∧
      (item.projectId = none →
        (applyTriageUpdates item now row).projectId = row.projectId) ∧
      (item.starred = none →
        (applyTriageUpdates item now row).starred = row.starred) ∧
      (∀ c, item.category = some c →
        (applyTriageUpdates item now row).category = some c ∧
        (applyTriageUpdates item now row).triagedAt = some now) ∧
      (item.category = some "dismiss" →
        (triage_one db item now).2 = TriageOutcome.triaged []) := by
  intro db item now row h
  refine ⟨?_, applyTriageUpdates_category_none item now row,
    applyTriageUpdates_userNote item now row, applyTriageUpdates_tags item now row,
    applyTriageUpdates_projectId item now row, applyTriageUpdates_starred item now row,
    fun c hc => applyTriageUpdates_category_some item now row c hc, ?_⟩
  · rw [triage_one_lookup, h]
    have hrow : (row.id == item.tabId) = true := by
      have := List.find?_some h
      simpa using this
    show some (triageTabStep item now row) = some (applyTriageUpdates item now row)
    unfold triageTabStep
    rw [hrow]
    rfl
  · intro hdis
    unfold triage_one
    rw [h]
    simp only []
    congr 1
    unfold routeNotion
    cases item.notionTarget with
    | none => rfl
    | some target =>
      by_cases htg : target = ""
      · simp [htg]
      · simp [htg, hdis]

theorem triage_one_partial_update_witness :
    lookupTab dbTagged 1 = some tabEx ∧
    lookupTab (triage_one dbTagged itemActEx 99).1 1
      = some (applyTriageUpdates itemActEx 99 tabEx) ∧
    (applyTriageUpdates itemActEx 99 tabEx).userNote = some "Notiz" ∧
    (applyTriageUpdates itemActEx 99 tabEx).tags = some ["alt"] ∧
    (applyTriageUpdates itemActEx 99 tabEx).category = some "actionable" ∧
    (applyTriageUpdates itemActEx 99 tabEx).triagedAt = some 99 ∧
    (triage_one dbTagged itemDismissEx 99).2 = TriageOutcome.triaged [] := by
  have h := triage_one_partial_update dbTagged itemActEx 99 tabEx (by decide)
  have hd := triage_one_partial_update dbTagged itemDismissEx 99 tabEx (by decide)
  refine ⟨by decide, h.1, ?_, ?_,
    (h.2.2.2.2.2.2.1 "actionable" rfl).1, (h.2.2.2.2.2.2.1 "actionable" rfl).2,
    hd.2.2.2.2.2.2.2 rfl⟩
  · rw [h.2.2.1 rfl]
    rfl
  · rw [h.2.2.2.1 rfl]
    rfl

-- ── Capture loop lemmas ────────────────────────────────────────────────

theorem isIgnoredDomain_congr (env : Env) (db db' : DB) (url : String)
    (h : db.ignoredDomains = db'.ignoredDomains) :
    isIgnoredDomain env db url = isIgnoredDomain env db' url := by
  unfold isIgnoredDomain
  rw [h]

theorem hasRecentCapture_congr (db db' : DB) (url : String) (now : Int)
    (h : db.tabs = db'.tabs) :
    hasRecentCapture db url now = hasRecentCapture db' url now := by
  unfold hasRecentCapture
  rw [h]

theorem skipReason_congr (env : Env) (db db' : DB) (seen : List String)
    (url : String) (now : Int)
    (hig : db.ignoredDomains = db'.ignoredDomains) (htabs : db.tabs = db'.tabs) :
    skipReason env db seen url now = skipReason env db' seen url now := by
  unfold skipReason
  rw [isIgnoredDomain_congr env db db' url hig, hasRecentCapture_congr db db' url now htabs]

theorem skipReason_none_iff (env : Env) (db : DB) (seen : List String)
    (url : String) (now : Int) :
    skipReason env db seen url now = none ↔
      isSelfRefUrl url = false ∧ isIgnoredDomain env db url = false ∧
      seen.contains url = false ∧ hasRecentCapture db url now = false := by
  unfold skipReason
  split_ifs with h1 h2 h3 h4 <;> simp_all

theorem skipReason_dup (env : Env) (db : DB) (seen : List String) (url : String)
    (now : Int) (h1 : isSelfRefUrl url = false)
    (h2 : isIgnoredDomain env db url = false) (h3 : seen.contains url = true) :
    skipReason env db seen url now = some SkipReason.intraBatchDup := by
  unfold skipReason
  rw [h1, h2, h3]
  rfl

theorem skipReason_recent_iff (env : Env) (db : DB) (seen : List String)
    (url : String) (now : Int) :
    skipReason env db seen url now = some SkipReason.recentDup ↔
      isSelfRefUrl url = false ∧ isIgnoredDomain env db url = false ∧
      seen.contains url = false ∧ hasRecentCapture db url now = true := by
  unfold skipReason
  split_ifs with h1 h2 h3 h4 <;> simp_all

theorem captureStep_eq_match (env : Env) (now : Int) (sid : Nat) (ls : LoopState)
    (sub : TabData) :
    captureStep env now sid ls sub =
      match skipReason env ls.db ls.seen sub.url now with
      | some r =>
        { ls with
            seen := if r = SkipReason.recentDup then ls.seen ++ [sub.url] else ls.seen,
            skipped := ls.skipped + 1 }
      | none =>
        { db := { ls.db with tabs := ls.db.tabs ++
              [freshTab ls.nextTabId sid sub (parseContentFields env sub) now] },
          seen := ls.seen ++ [sub.url],
          tabIds := ls.tabIds ++ [ls.nextTabId],
          skipped := ls.skipped,
          nextTabId := ls.nextTabId + 1 } := by
  unfold captureStep skipReason
  split_ifs <;> rfl

theorem captureLoop_spec (env : Env) (now : Int) (sid : Nat) (subs : List TabData)
    (ls : LoopState) :
    (subs.foldl (captureStep env now sid) ls).db.sessions = ls.db.sessions ∧
    (subs.foldl (captureStep env now sid) ls).db.ignoredDomains = ls.db.ignoredDomains ∧
    (∃ new : List Tab,
      (subs.foldl (captureStep env now sid) ls).db.tabs = ls.db.tabs ++ new ∧
      (subs.foldl (captureStep env now sid) ls).tabIds = ls.tabIds ++ new.map Tab.id ∧
      ∀ t ∈ new, t.sessionId = sid ∧ t.capturedAt = now ∧ t.category = none ∧
        t.triagedAt = none ∧ t.starred = false) ∧
    (subs.foldl (captureStep env now sid) ls).skipped
        + (subs.foldl (captureStep env now sid) ls).tabIds.length
      = ls.skipped + ls.tabIds.length + subs.length := by
  induction subs generalizing ls with
  | nil => exact ⟨rfl, rfl, ⟨[], by simp, by simp, by intro t ht; cases ht⟩, by simp⟩
  | cons sub rest ih =>
    simp only [List.foldl_cons, List.length_cons]
    rw [captureStep_eq_match]
    cases hr : skipReason env ls.db ls.seen sub.url now with
    | some r =>
      simp only []
      obtain ⟨h1, h2, ⟨new, h3, h4, h5⟩, h6⟩ := ih
        { ls with
            seen := if r = SkipReason.recentDup then ls.seen ++ [sub.url] else ls.seen,
            skipped := ls.skipped + 1 }
      refine ⟨h1, h2, ⟨new, h3, h4, h5⟩, ?_⟩
      have h6' : (rest.foldl (captureStep env now sid)
          { ls with
              seen := if r = SkipReason.recentDup then ls.seen ++ [sub.url] else ls.seen,
              skipped := ls.skipped + 1 }).skipped
          + (rest.foldl (captureStep env now sid)
          { ls with
              seen := if r = SkipReason.recentDup then ls.seen ++ [sub.url] else ls.seen,
              skipped := ls.skipped + 1 }).tabIds.length
          = (ls.skipped + 1) + ls.tabIds.length + rest.length := h6
      omega
    | none =>
      simp only []
      obtain ⟨h1, h2, ⟨new, h3, h4, h5⟩, h6⟩ := ih
        { db := { ls.db with tabs := ls.db.tabs ++
              [freshTab ls.nextTabId sid sub (parseContentFields env sub) now] },
          seen := ls.seen ++ [sub.url],
          tabIds := ls.tabIds ++ [ls.nextTabId],
          skipped := ls.skipped,
          nextTabId := ls.nextTabId + 1 }
      refine ⟨h1, h2,
        ⟨freshTab ls.nextTabId sid sub (parseContentFields env sub) now :: new, ?_, ?_, ?_⟩, ?_⟩
      · rw [h3]
        simp
      · rw [h4]
        simp [freshTab]
      · intro t ht
        rcases List.mem_cons.mp ht with h | h
        · subst h
          exact ⟨rfl, rfl, rfl, rfl, rfl⟩
        · exact h5 t h
      · have h6' : (rest.foldl (captureStep env now sid)
            { db := { ls.db with tabs := ls.db.tabs ++
                  [freshTab ls.nextTabId sid sub (parseContentFields env sub) now] },
              seen := ls.seen ++ [sub.url],
              tabIds := ls.tabIds ++ [ls.nextTabId],
              skipped := ls.skipped,
              nextTabId := ls.nextTabId + 1 }).skipped
            + (rest.foldl (captureStep env now sid)
            { db := { ls.db with tabs := ls.db.tabs ++
                  [freshTab ls.nextTabId sid sub (parseContentFields env sub) now] },
              seen := ls.seen ++ [sub.url],
              tabIds := ls.tabIds ++ [ls.nextTabId],
              skipped := ls.skipped,
              nextTabId := ls.nextTabId + 1 }).tabIds.length
            = ls.skipped + (ls.tabIds ++ [ls.nextTabId]).length + rest.length := h6
        simp only [List.length_append, List.length_cons, List.length_nil] at h6'
        omega

theorem captureStep_insert (env : Env) (now : Int) (sid : Nat) (ls : LoopState)
    (sub : TabData) (h : skipReason env ls.db ls.seen sub.url now = none) :
    captureStep env now sid ls sub =
      { db := { ls.db with tabs := ls.db.tabs ++
            [freshTab ls.nextTabId sid sub (parseContentFields env sub) now] },
        seen := ls.seen ++ [sub.url],
        tabIds := ls.tabIds ++ [ls.nextTabId],
        skipped := ls.skipped,
        nextTabId := ls.nextTabId + 1 } := by
  rw [captureStep_eq_match, h]

theorem captureStep_skip (env : Env) (now : Int) (sid : Nat) (ls : LoopState)
    (sub : TabData) (r : SkipReason)
    (h : skipReason env ls.db ls.seen sub.url now = some r) :
    captureStep env now sid ls sub =
      { ls with
          seen := if r = SkipReason.recentDup then ls.seen ++ [sub.url] else ls.seen,
          skipped := ls.skipped + 1 } := by
  rw [captureStep_eq_match, h]

-- ── C1: capture filter order, intra-batch dedup and 24h recency ────────

/-- C1: the capture filters are applied per submission in the exact order
self-reference, ignored-domain, intra-batch duplicate, 24h recency, the
first match skipping the submission and incrementing the skip counter
(conjunct 1 characterises the loop body by that ordered classifier);
submitting the same URL twice in one capture call yields `tab_count = 1`
and `skipped = 1`; a URL captured within the last 24 hours is skipped on
re-submission; a URL whose captures all lie 2 or more days in the past is
accepted and creates a new tab row. -/
theorem capture_filter_order_and_dedup :
    (∀ (env : Env) (now : Int) (sid : Nat) (ls : LoopState) (sub : TabData),
      captureStep env now sid ls sub =
        match skipReason env ls.db ls.seen sub.url now with
        | some r =>
          { ls with
              seen := if r = SkipReason.recentDup then ls.seen ++ [sub.url] else ls.seen,
              skipped := ls.skipped + 1 }
        | none =>
          { db := { ls.db with tabs := ls.db.tabs ++
                [freshTab ls.nextTabId sid sub (parseContentFields env sub) now] },
            seen := ls.seen ++ [sub.url],
            tabIds := ls.tabIds ++ [ls.nextTabId],
            skipped := ls.skipped,
            nextTabId := ls.nextTabId + 1 }) ∧
    (∀ (env : Env) (st : ServerState) (sub : TabData) (now : Int),
      skipReason env st.db [] sub.url now = none →
      (capture_tabs env st ⟨none, [sub, sub]⟩ now).2.tabCount = 1 ∧
      (capture_tabs env st ⟨none, [sub, sub]⟩ now).2.skipped = 1) ∧
    (∀ (env : Env) (st : ServerState) (sub : TabData) (now : Int),
      isSelfRefUrl sub.url = false → isIgnoredDomain env st.db sub.url = false →
      hasRecentCapture st.db sub.url now = true →
      (capture_tabs env st ⟨none, [sub]⟩ now).2.tabCount = 0 ∧
      (capture_tabs env st ⟨none, [sub]⟩ now).2.skipped = 1 ∧
      (capture_tabs env st ⟨none, [sub]⟩ now).2.status = "all_duplicates") ∧
    (∀ (env : Env) (st : ServerState) (sub : TabData) (now : Int),
      isSelfRefUrl sub.url = false → isIgnoredDomain env st.db sub.url = false →
      (∀ t ∈ st.db.tabs, t.url = sub.url → t.capturedAt ≤ now - 2 * 86400) →
      (capture_tabs env st ⟨none, [sub]⟩ now).2.tabCount = 1 ∧
      (capture_tabs env st ⟨none, [sub]⟩ now).2.status = "captured" ∧
      ∃ t ∈ (capture_tabs env st ⟨none, [sub]⟩ now).1.db.tabs,
        t.url = sub.url ∧ t.capturedAt = now) := by
  refine ⟨captureStep_eq_match, ?_, ?_, ?_⟩
  · -- intra-batch dedup on [sub, sub]
    intro env st sub now h
    obtain ⟨h1, h2, _, _⟩ := (skipReason_none_iff env st.db [] sub.url now).mp h
    have hsr0 : skipReason env (captureInit st ⟨none, [sub, sub]⟩).db
        (captureInit st ⟨none, [sub, sub]⟩).seen sub.url now = none := by
      rw [skipReason_congr env (captureInit st ⟨none, [sub, sub]⟩).db st.db
        (captureInit st ⟨none, [sub, sub]⟩).seen sub.url now rfl rfl]
      exact h
    have step1 := captureStep_insert env now st.nextSessionId
      (captureInit st ⟨none, [sub, sub]⟩) sub hsr0
    have hseen1 : (captureStep env now st.nextSessionId
        (captureInit st ⟨none, [sub, sub]⟩) sub).seen = [sub.url] := by
      rw [step1]
      rfl
    have hids1 : (captureStep env now st.nextSessionId
        (captureInit st ⟨none, [sub, sub]⟩) sub).tabIds = [st.nextTabId] := by
      rw [step1]
      rfl
    have hskip1 : (captureStep env now st.nextSessionId
        (captureInit st ⟨none, [sub, sub]⟩) sub).skipped = 0 := by
      rw [step1]
      rfl
    have hig1 : (captureStep env now st.nextSessionId
        (captureInit st ⟨none, [sub, sub]⟩) sub).db.ignoredDomains
        = st.db.ignoredDomains := by
      rw [step1]
      rfl
    have hsr1 : skipReason env
        (captureStep env now st.nextSessionId (captureInit st ⟨none, [sub, sub]⟩) sub).db
        (captureStep env now st.nextSessionId (captureInit st ⟨none, [sub, sub]⟩) sub).seen
        sub.url now = some SkipReason.intraBatchDup := by
      apply skipReason_dup env _ _ sub.url now h1
      · rw [isIgnoredDomain_congr env _ st.db sub.url hig1]
        exact h2
      · rw [hseen1]
        simp
    have step2 := captureStep_skip env now st.nextSessionId
      (captureStep env now st.nextSessionId (captureInit st ⟨none, [sub, sub]⟩) sub)
      sub SkipReason.intraBatchDup hsr1
    have hloop : captureLoop env st ⟨none, [sub, sub]⟩ now
        = captureStep env now st.nextSessionId
            (captureStep env now st.nextSessionId (captureInit st ⟨none, [sub, sub]⟩) sub)
            sub := rfl
    have hloopIds : (captureLoop env st ⟨none, [sub, sub]⟩ now).tabIds = [st.nextTabId] := by
      rw [hloop, step2]
      exact hids1
    have hloopSkip : (captureLoop env st ⟨none, [sub, sub]⟩ now).skipped = 1 := by
      rw [hloop, step2]
      show (captureStep env now st.nextSessionId
        (captureInit st ⟨none, [sub, sub]⟩) sub).skipped + 1 = 1
      rw [hskip1]
    have hne : (captureLoop env st ⟨none, [sub, sub]⟩ now).tabIds.isEmpty = false := by
      rw [hloopIds]
      rfl
    unfold capture_tabs
    rw [hne]
    simp only [Bool.false_eq_true, if_false]
    constructor
    · show (captureLoop env st ⟨none, [sub, sub]⟩ now).tabIds.length = 1
      rw [hloopIds]
      rfl
    · exact hloopSkip
  · -- 24h recency skip on re-submission
    intro env st sub now h1 h2 h4
    have hsr0 : skipReason env (captureInit st ⟨none, [sub]⟩).db
        (captureInit st ⟨none, [sub]⟩).seen sub.url now = some SkipReason.recentDup := by
      rw [skipReason_congr env (captureInit st ⟨none, [sub]⟩).db st.db
        (captureInit st ⟨none, [sub]⟩).seen sub.url now rfl rfl]
      exact (skipReason_recent_iff env st.db [] sub.url now).mpr ⟨h1, h2, rfl, h4⟩
    have step1 := captureStep_skip env now st.nextSessionId
      (captureInit st ⟨none, [sub]⟩) sub SkipReason.recentDup hsr0
    have hloop : captureLoop env st ⟨none, [sub]⟩ now
        = captureStep env now st.nextSessionId (captureInit st ⟨none, [sub]⟩) sub := rfl
    have hloopIds : (captureLoop env st ⟨none, [sub]⟩ now).tabIds = [] := by
      rw [hloop, step1]
      rfl
    have hloopSkip : (captureLoop env st ⟨none, [sub]⟩ now).skipped = 1 := by
      rw [hloop, step1]
      rfl
    have hemp : (captureLoop env st ⟨none, [sub]⟩ now).tabIds.isEmpty = true := by
      rw [hloopIds]
      rfl
    unfold capture_tabs
    rw [hemp]
    simp only [if_true]
    exact ⟨trivial, hloopSkip, trivial⟩
  · -- 2+ day old capture is re-accepted
    intro env st sub now h1 h2 hold
    have h4 : hasRecentCapture st.db sub.url now = false := by
      unfold hasRecentCapture
      rw [List.any_eq_false]
      intro t ht
      by_cases hu : t.url = sub.url
      · have hle := hold t ht hu
        simp only [hu, beq_self_eq_true, Bool.true_and]
        intro hlt
        simp only [decide_eq_true_eq] at hlt
        omega
      · simp [hu]
    have hsr0 : skipReason env (captureInit st ⟨none, [sub]⟩).db
        (captureInit st ⟨none, [sub]⟩).seen sub.url now = none := by
      rw [skipReason_congr env (captureInit st ⟨none, [sub]⟩).db st.db
        (captureInit st ⟨none, [sub]⟩).seen sub.url now rfl rfl]
      exact (skipReason_none_iff env st.db [] sub.url now).mpr ⟨h1, h2, rfl, h4⟩
    have step1 := captureStep_insert env now st.nextSessionId
      (captureInit st ⟨none, [sub]⟩) sub hsr0
    have hloop : captureLoop env st ⟨none, [sub]⟩ now
        = captureStep env now st.nextSessionId (captureInit st ⟨none, [sub]⟩) sub := rfl
    have hloopIds : (captureLoop env st ⟨none, [sub]⟩ now).tabIds = [st.nextTabId] := by
      rw [hloop, step1]
      rfl
    have htabs : (captureLoop env st ⟨none, [sub]⟩ now).db.tabs
        = st.db.tabs ++ [freshTab st.nextTabId st.nextSessionId sub
            (parseContentFields env sub) now] := by
      rw [hloop, step1]
      rfl
    have hne : (captureLoop env st ⟨none, [sub]⟩ now).tabIds.isEmpty = false := by
      rw [hloopIds]
      rfl
    unfold capture_tabs
    rw [hne]
    simp only [Bool.false_eq_true, if_false]
    refine ⟨?_, trivial, ?_⟩
    · show (captureLoop env st ⟨none, [sub]⟩ now).tabIds.length = 1
      rw [hloopIds]
      rfl
    · refine ⟨freshTab st.nextTabId st.nextSessionId sub (parseContentFields env sub) now,
        ?_, rfl, rfl⟩
      show _ ∈ (captureLoop env st ⟨none, [sub]⟩ now).db.tabs
      rw [htabs]
      exact List.mem_append_right _ (List.mem_singleton.mpr rfl)

theorem capture_filter_order_and_dedup_witness :
    skipReason envEx emptyState.db [] subEx.url 1000 = none ∧
    (capture_tabs envEx emptyState ⟨none, [subEx, subEx]⟩ 1000).2.tabCount = 1 ∧
    (capture_tabs envEx emptyState ⟨none, [subEx, subEx]⟩ 1000).2.skipped = 1 ∧
    isSelfRefUrl subEx.url = false ∧
    isIgnoredDomain envEx dbTagged subEx.url = false ∧
    hasRecentCapture dbTagged subEx.url 1000 = true ∧
    (capture_tabs envEx { emptyState with db := dbTagged } ⟨none, [subEx]⟩ 1000).2.tabCount
      = 0 ∧
    (capture_tabs envEx { emptyState with db := dbTagged } ⟨none, [subEx]⟩ 1000).2.skipped
      = 1 ∧
    (∀ t ∈ dbTagged.tabs, t.url = subEx.url → t.capturedAt ≤ 200000 - 2 * 86400) ∧
    (capture_tabs envEx { emptyState with db := dbTagged } ⟨none, [subEx]⟩ 200000).2.tabCount
      = 1 ∧
    (∃ t ∈ (capture_tabs envEx { emptyState with db := dbTagged }
        ⟨none, [subEx]⟩ 200000).1.db.tabs,
      t.url = subEx.url ∧ t.capturedAt = 200000) := by
  have hdup := capture_filter_order_and_dedup.2.1 envEx emptyState subEx 1000 (by decide)
  have hrec := capture_filter_order_and_dedup.2.2.1 envEx
    { emptyState with db := dbTagged } subEx 1000 (by decide) (by decide) (by decide)
  have hacc := capture_filter_order_and_dedup.2.2.2 envEx
    { emptyState with db := dbTagged } subEx 200000 (by decide) (by decide) (by decide)
  exact ⟨by decide, hdup.1, hdup.2, by decide, by decide, by decide,
    hrec.1, hrec.2.1, by decide, hacc.1, hacc.2.2⟩

-- ── C2: all-duplicate capture leaves no trace ──────────────────────────

/-- C2: a capture request in which every submission is filtered out deletes
the just-created session (session table unchanged, given the fresh session
id), returns `all_duplicates` with a null session id, `tab_count = 0` and
the skip count equal to the number of submissions, and has no further side
effects: no tab rows, no progress record, no background enrichment task,
and the pending-close list and undo buffer untouched. -/
theorem capture_all_duplicates_no_trace :
    ∀ (env : Env) (st : ServerState) (req : CaptureReq) (now : Int),
      (∀ s ∈ st.db.sessions, s.id ≠ st.nextSessionId) →
      (capture_tabs env st req now).2.tabCount = 0 →
      (capture_tabs env st req now).2.status = "all_duplicates" ∧
      (capture_tabs env st req now).2.sessionId = none ∧
      (capture_tabs env st req now).2.skipped = req.tabs.length ∧
      (capture_tabs env st req now).1.db.sessions = st.db.sessions ∧
      (capture_tabs env st req now).1.db.tabs = st.db.tabs ∧
      (capture_tabs env st req now).1.db.ignoredDomains = st.db.ignoredDomains ∧
      (capture_tabs env st req now).1.progress = st.progress ∧
      (capture_tabs env st req now).1.bgTasks = st.bgTasks ∧
      (capture_tabs env st req now).1.pendingClose = st.pendingClose ∧
      (capture_tabs env st req now).1.undoBuffer = st.undoBuffer := by
  intro env st req now hfresh hcount
  obtain ⟨hsess, hig, ⟨new, htabs, hids, _⟩, hskip⟩ :=
    captureLoop_spec env now st.nextSessionId req.tabs (captureInit st req)
  have hsess' : (captureLoop env st req now).db.sessions
      = st.db.sessions ++ [⟨st.nextSessionId, req.windowTitle⟩] := hsess
  have hig' : (captureLoop env st req now).db.ignoredDomains
      = st.db.ignoredDomains := hig
  have htabs' : (captureLoop env st req now).db.tabs = st.db.tabs ++ new := htabs
  have hids' : (captureLoop env st req now).tabIds = new.map Tab.id := hids
  have hskip' : (captureLoop env st req now).skipped
      + (captureLoop env st req now).tabIds.length = 0 + 0 + req.tabs.length := hskip
  cases hemp : (captureLoop env st req now).tabIds.isEmpty with
  | false =>
    exfalso
    unfold capture_tabs at hcount
    rw [hemp] at hcount
    simp only [Bool.false_eq_true, if_false] at hcount
    have : (captureLoop env st req now).tabIds = [] := List.eq_nil_of_length_eq_zero hcount
    rw [this] at hemp
    cases hemp
  | true =>
    have hidsNil : (captureLoop env st req now).tabIds = [] := by
      cases h : (captureLoop env st req now).tabIds with
      | nil => rfl
      | cons a l => rw [h] at hemp; cases hemp
    have hnewNil : new = [] := by
      rw [hidsNil] at hids'
      exact (List.map_eq_nil_iff.mp hids'.symm)
    unfold capture_tabs
    rw [hemp]
    simp only [if_true]
    refine ⟨trivial, trivial, ?_, ?_, ?_, hig', trivial, trivial, trivial, trivial⟩
    · show (captureLoop env st req now).skipped = req.tabs.length
      rw [hidsNil] at hskip'
      simpa using hskip'
    · show (captureLoop env st req now).db.sessions.filter
        (fun s => s.id ≠ st.nextSessionId) = st.db.sessions
      rw [hsess', List.filter_append]
      have h1 : List.filter (fun s => decide (s.id ≠ st.nextSessionId))
          [(⟨st.nextSessionId, req.windowTitle⟩ : Session)] = [] := by
        simp
      rw [h1, List.append_nil]
      apply List.filter_eq_self.mpr
      intro s hs
      simpa using hfresh s hs
    · show (captureLoop env st req now).db.tabs = st.db.tabs
      rw [htabs', hnewNil, List.append_nil]

theorem capture_all_duplicates_no_trace_witness :
    (∀ s ∈ stExpired.db.sessions, s.id ≠ stExpired.nextSessionId) ∧
    (capture_tabs envEx stExpired ⟨none, [subEx]⟩ 1000).2.tabCount = 0 ∧
    (capture_tabs envEx stExpired ⟨none, [subEx]⟩ 1000).2.status = "all_duplicates" ∧
    (capture_tabs envEx stExpired ⟨none, [subEx]⟩ 1000).2.skipped = 1 ∧
    (capture_tabs envEx stExpired ⟨none, [subEx]⟩ 1000).1.db.sessions
      = stExpired.db.sessions ∧
    (capture_tabs envEx stExpired ⟨none, [subEx]⟩ 1000).1.progress
      = stExpired.progress := by
  have h := capture_all_duplicates_no_trace envEx stExpired ⟨none, [subEx]⟩ 1000
    (by decide) (by decide)
  exact ⟨by decide, by decide, h.1, h.2.2.1, h.2.2.2.1, h.2.2.2.2.2.2.1⟩

-- ── Auto-triage fold machinery ─────────────────────────────────────────

theorem map_triageTabStep_of_absent (db : DB) (item : TriageItem) (now : Int)
    (h : lookupTab db item.tabId = none) :
    db.tabs.map (triageTabStep item now) = db.tabs := by
  have habs := List.find?_eq_none.mp h
  calc db.tabs.map (triageTabStep item now)
      = db.tabs.map id := by
        apply List.map_congr_left
        intro t ht
        have hne : (t.id == item.tabId) = false := by simpa using habs t ht
        unfold triageTabStep
        rw [hne]
        rfl
    _ = db.tabs := List.map_id db.tabs

theorem triage_one_db_eq (db : DB) (item : TriageItem) (now : Int) :
    (triage_one db item now).1
      = { db with tabs := db.tabs.map (triageTabStep item now) } := by
  unfold triage_one
  cases h : lookupTab db item.tabId with
  | some row => rfl
  | none =>
    simp only []
    rw [map_triageTabStep_of_absent db item now h]

theorem triage_bulk_eq (db : DB) (items : List TriageItem) (now : Int) :
    triage_bulk db items now
      = { db with tabs :=
          db.tabs.map (fun t => items.foldl (fun t i => triageTabStep i now t) t) } := by
  unfold triage_bulk
  have hfg : (fun d i => (triage_one d i now).1)
      = (fun (d : DB) (i : TriageItem) => { d with tabs := d.tabs.map (triageTabStep i now) }) :=
    funext fun d => funext fun i => triage_one_db_eq d i now
  rw [hfg]
  exact foldl_tabs_map (fun i => triageTabStep i now) items db

theorem foldl_triageTabStep_not_mem (items : List TriageItem) (now : Int) (t : Tab)
    (h : ∀ i ∈ items, i.tabId ≠ t.id) :
    items.foldl (fun t i => triageTabStep i now t) t = t := by
  induction items with
  | nil => rfl
  | cons i rest ih =>
    simp only [List.foldl_cons]
    have hstep : triageTabStep i now t = t := by
      unfold triageTabStep
      have hne : (t.id == i.tabId) = false := by
        simp only [beq_eq_false_iff_ne]
        exact fun he => h i (List.mem_cons_self i rest) he.symm
      rw [hne]
      rfl
    rw [hstep]
    exact ih (fun j hj => h j (List.mem_cons_of_mem i hj))

theorem foldl_triageTabStep_id (items : List TriageItem) (now : Int) (t : Tab) :
    (items.foldl (fun t i => triageTabStep i now t) t).id = t.id := by
  induction items generalizing t with
  | nil => rfl
  | cons i rest ih =>
    simp only [List.foldl_cons]
    rw [ih (triageTabStep i now t), triageTabStep_id]

theorem foldl_triageTabStep_mem (pre post : List TriageItem) (i : TriageItem)
    (now : Int) (t : Tab)
    (hpre : ∀ j ∈ pre, j.tabId ≠ t.id) (hpost : ∀ j ∈ post, j.tabId ≠ t.id)
    (hid : i.tabId = t.id) :
    (pre ++ i :: post).foldl (fun t i => triageTabStep i now t) t
      = applyTriageUpdates i now t := by
  rw [List.foldl_append, foldl_triageTabStep_not_mem pre now t hpre]
  simp only [List.foldl_cons]
  have hstep : triageTabStep i now t = applyTriageUpdates i now t := by
    unfold triageTabStep
    have hbeq : (t.id == i.tabId) = true := by simp [hid]
    rw [hbeq]
    rfl
  rw [hstep]
  apply foldl_triageTabStep_not_mem
  intro j hj
  rw [applyTriageUpdates_id]
  exact hpost j hj

theorem selectedTabs_mem (db : DB) (p : Tab × String) (hp : p ∈ selectedTabs db) :
    p.1 ∈ db.tabs ∧ p.1.triagedAt = none ∧ p.1.suggestedCategory = some p.2 := by
  unfold selectedTabs at hp
  obtain ⟨t, ht, heq⟩ := List.mem_filterMap.mp hp
  cases hta : t.triagedAt with
  | some v => rw [hta] at heq; cases heq
  | none =>
    cases hsc : t.suggestedCategory with
    | none => rw [hta, hsc] at heq; cases heq
    | some c =>
      rw [hta, hsc] at heq
      obtain rfl : (t, c) = p := Option.some_inj.mp heq
      exact ⟨ht, hta, hsc⟩

theorem selectedTabs_ids_sublist (l : List Tab) :
    ((l.filterMap (fun t =>
        match t.triagedAt, t.suggestedCategory with
        | none, some c => some (t, c)
        | _, _ => none)).map (fun p => p.1.id)).Sublist (l.map Tab.id) := by
  induction l with
  | nil => simp
  | cons t rest ih =>
    rw [List.filterMap_cons, List.map_cons]
    cases hta : t.triagedAt with
    | some v =>
      simp only []
      exact ih.cons t.id
    | none =>
      cases hsc : t.suggestedCategory with
      | none =>
        simp only []
        exact ih.cons t.id
      | some c =>
        simp only [List.map_cons]
        exact ih.cons₂ t.id

theorem selectedTabs_ids_nodup (db : DB) (h : (db.tabs.map Tab.id).Nodup) :
    ((selectedTabs db).map (fun p => p.1.id)).Nodup := by
  unfold selectedTabs
  exact (selectedTabs_ids_sublist db.tabs).nodup h

theorem nodup_split_ne {α β : Type} (f : α → β) (pre post : List α) (x : α)
    (h : ((pre ++ x :: post).map f).Nodup) :
    (∀ a ∈ pre, f a ≠ f x) ∧ (∀ a ∈ post, f a ≠ f x) := by
  rw [List.map_append, List.map_cons] at h
  rw [List.nodup_append] at h
  obtain ⟨h1, h2, hdis⟩ := h
  constructor
  · intro a ha he
    exact hdis (List.mem_map_of_mem f ha) (by rw [he]; exact List.mem_cons_self _ _)
  · intro a ha he
    exact (List.nodup_cons.mp h2).1 (he ▸ List.mem_map_of_mem f ha)

theorem enqueue_mem (pending urls : List String) (u : String) :
    u ∈ enqueueCloseUrls pending urls ↔ (u ∈ pending ∨ u ∈ urls) := by
  induction urls generalizing pending with
  | nil => simp [enqueueCloseUrls]
  | cons v rest ih =>
    unfold enqueueCloseUrls at ih ⊢
    simp only [List.foldl_cons]
    by_cases hv : v ∈ pending
    · rw [if_pos hv, ih]
      simp only [List.mem_cons]
      constructor
      · rintro (h | h)
        · exact Or.inl h
        · exact Or.inr (Or.inr h)
      · rintro (h | rfl | h)
        · exact Or.inl h
        · exact Or.inl hv
        · exact Or.inr h
    · rw [if_neg hv, ih]
      simp only [List.mem_append, List.mem_singleton, List.mem_cons]
      tauto

theorem enqueue_nodup (pending urls : List String) (h : pending.Nodup) :
    (enqueueCloseUrls pending urls).Nodup := by
  induction urls generalizing pending with
  | nil => exact h
  | cons v rest ih =>
    unfold enqueueCloseUrls
    simp only [List.foldl_cons]
    by_cases hv : v ∈ pending
    · rw [if_pos hv]
      exact ih pending h
    · rw [if_neg hv]
      apply ih
      rw [List.nodup_append]
      exact ⟨h, List.nodup_singleton v, by
        intro a ha hav
        rw [List.mem_singleton.mp hav] at ha
        exact hv ha⟩

theorem length_filter_not_add {α : Type} (l : List α) (q : α → Bool) :
    (l.filter (fun a => !(q a))).length + (l.filter q).length = l.length := by
  induction l with
  | nil => rfl
  | cons a rest ih =>
    cases hq : q a <;> simp [List.filter_cons, hq] <;> omega

theorem applyAutoItem_fields (t : Tab) (c : String) (now : Int) :
    (applyTriageUpdates (autoItem t c) now t).id = t.id ∧
    (applyTriageUpdates (autoItem t c) now t).url = t.url ∧
    (applyTriageUpdates (autoItem t c) now t).category = some c ∧
    (applyTriageUpdates (autoItem t c) now t).triagedAt = some now ∧
    (applyTriageUpdates (autoItem t c) now t).starred
      = (if c = "actionable" then true else t.starred) := by
  unfold autoItem applyTriageUpdates
  by_cases hc : c = "actionable" <;> simp [hc]

-- ── C4: auto-triage derivation, close queue, counts ────────────────────

/-- C4: auto-triage triages every selected tab (null `triaged_at`, non-null
`suggested_category`) to its suggested category: `actionable` additionally
sets `starred = true`; `archive` enqueues the tab's URL into the
pending-close list without creating duplicate entries; saved counts the
non-archive tabs, starred the actionable ones, archived the archive ones,
with `saved + archived = total`; and an invocation with zero eligible tabs
mutates nothing and returns a null batch id. -/
theorem auto_triage_applies_suggestions :
    ∀ (st : ServerState) (now : Int) (bid : String),
      (st.db.tabs.map Tab.id).Nodup →
      ((selectedTabs st.db = [] →
        triage_auto st now bid
          = (st, { total := 0, saved := 0, starred := 0, archived := 0,
                   closeRequested := 0, batchId := none })) ∧
      (∀ p ∈ selectedTabs st.db,
        ∃ t2 ∈ (triage_auto st now bid).1.db.tabs,
          t2.id = p.1.id ∧ t2.category = some p.2 ∧ t2.triagedAt = some now ∧
          (p.2 = "actionable" → t2.starred = true) ∧
          (p.2 = "archive" → t2.url ∈ (triage_auto st now bid).1.pendingClose)) ∧
      (st.pendingClose.Nodup → (triage_auto st now bid).1.pendingClose.Nodup) ∧
      ((triage_auto st now bid).2.saved
          = ((selectedTabs st.db).filter (fun p => p.2 ≠ "archive")).length ∧
        (triage_auto st now bid).2.starred
          = ((selectedTabs st.db).filter (fun p => p.2 = "actionable")).length ∧
        (triage_auto st now bid).2.archived
          = ((selectedTabs st.db).filter (fun p => p.2 = "archive")).length ∧
        (triage_auto st now bid).2.saved + (triage_auto st now bid).2.archived
          = (triage_auto st now bid).2.total)) := by
  intro st now bid hnd
  by_cases hsel : selectedTabs st.db = []
  · have hauto : triage_auto st now bid
        = (st, { total := 0, saved := 0, starred := 0, archived := 0,
                 closeRequested := 0, batchId := none }) := by
      unfold triage_auto
      rw [hsel]
      rfl
    refine ⟨fun _ => hauto, ?_, ?_, ?_⟩
    · intro p hp
      rw [hsel] at hp
      cases hp
    · intro hnp
      rw [hauto]
      exact hnp
    · rw [hauto, hsel]
      exact ⟨rfl, rfl, rfl, rfl⟩
  · have hne : (selectedTabs st.db).isEmpty = false := by
      cases h : selectedTabs st.db
      · exact absurd h hsel
      · rfl
    have hauto : triage_auto st now bid
        = ({ st with
              db := autoDB st.db now
              undoBuffer := purgeUndo
                (dictSet st.undoBuffer bid ⟨autoPreState st.db, now⟩) now
              pendingClose := enqueueCloseUrls st.pendingClose (autoCloseUrls st.db now) },
            { total := (autoItems st.db).length
              saved := ((selectedTabs st.db).filter (fun p => p.2 ≠ "archive")).length
              starred := ((selectedTabs st.db).filter (fun p => p.2 = "actionable")).length
              archived := ((selectedTabs st.db).filter (fun p => p.2 = "archive")).length
              closeRequested := (autoCloseIds st.db).length
              batchId := some bid }) := by
      unfold triage_auto
      rw [hne]
      rfl
    refine ⟨fun h => absurd h hsel, ?_, ?_, ?_⟩
    · -- every selected tab is triaged to its suggested category
      intro p hp
      obtain ⟨hmem, hta, hsc⟩ := selectedTabs_mem st.db p hp
      obtain ⟨pre, post, hdecomp⟩ := List.append_of_mem hp
      have hnd_sel := selectedTabs_ids_nodup st.db hnd
      rw [hdecomp] at hnd_sel
      obtain ⟨hpre, hpost⟩ := nodup_split_ne (fun q => q.1.id) pre post p hnd_sel
      have hitems : autoItems st.db = pre.map (fun q => autoItem q.1 q.2)
          ++ autoItem p.1 p.2 :: post.map (fun q => autoItem q.1 q.2) := by
        unfold autoItems
        rw [hdecomp, List.map_append, List.map_cons]
      have hF : (autoItems st.db).foldl (fun t i => triageTabStep i now t) p.1
          = applyTriageUpdates (autoItem p.1 p.2) now p.1 := by
        rw [hitems]
        apply foldl_triageTabStep_mem
        · intro j hj
          obtain ⟨q, hq, rfl⟩ := List.mem_map.mp hj
          exact hpre q hq
        · intro j hj
          obtain ⟨q, hq, rfl⟩ := List.mem_map.mp hj
          exact hpost q hq
        · rfl
      obtain ⟨hid, hurl, hcat, htat, hstar⟩ := applyAutoItem_fields p.1 p.2 now
      refine ⟨applyTriageUpdates (autoItem p.1 p.2) now p.1, ?_, hid, hcat, htat, ?_, ?_⟩
      · rw [hauto]
        show _ ∈ (autoDB st.db now).tabs
        unfold autoDB
        rw [triage_bulk_eq]
        exact List.mem_map.mpr ⟨p.1, hmem, hF⟩
      · intro hc
        rw [hstar, if_pos hc]
      · intro hc
        have hidmem : p.1.id ∈ autoCloseIds st.db := by
          unfold autoCloseIds
          exact List.mem_map_of_mem _ (List.mem_filter.mpr ⟨hp, by simp [hc]⟩)
        have hlk : lookupTab (autoDB st.db now) p.1.id
            = some (applyTriageUpdates (autoItem p.1 p.2) now p.1) := by
          unfold lookupTab autoDB
          rw [triage_bulk_eq]
          show (st.db.tabs.map
            (fun t => (autoItems st.db).foldl (fun t i => triageTabStep i now t) t)).find?
              (fun t => t.id == p.1.id) = _
          rw [find?_map_comm _ p.1.id (fun t => foldl_triageTabStep_id (autoItems st.db) now t)]
          rw [find?_id_of_nodup st.db.tabs p.1 hnd hmem]
          show some ((autoItems st.db).foldl (fun t i => triageTabStep i now t) p.1) = _
          rw [hF]
        have hurlmem : p.1.url ∈ autoCloseUrls st.db now := by
          unfold autoCloseUrls
          apply List.mem_filterMap.mpr
          refine ⟨p.1.id, hidmem, ?_⟩
          rw [hlk]
          show some ((applyTriageUpdates (autoItem p.1 p.2) now p.1).url) = some p.1.url
          exact congrArg some hurl
        rw [hauto, hurl]
        show p.1.url ∈ enqueueCloseUrls st.pendingClose (autoCloseUrls st.db now)
        exact (enqueue_mem st.pendingClose (autoCloseUrls st.db now) p.1.url).mpr
          (Or.inr hurlmem)
    · intro hnp
      rw [hauto]
      exact enqueue_nodup st.pendingClose (autoCloseUrls st.db now) hnp
    · rw [hauto]
      refine ⟨rfl, rfl, rfl, ?_⟩
      show ((selectedTabs st.db).filter (fun p => p.2 ≠ "archive")).length
          + ((selectedTabs st.db).filter (fun p => p.2 = "archive")).length
          = (autoItems st.db).length
      have hcompl : (fun (p : Tab × String) => decide (p.2 ≠ "archive"))
          = (fun (p : Tab × String) => !(decide (p.2 = "archive"))) :=
        funext fun p => decide_not
      calc ((selectedTabs st.db).filter (fun p => p.2 ≠ "archive")).length
            + ((selectedTabs st.db).filter (fun p => p.2 = "archive")).length
          = ((selectedTabs st.db).filter
              (fun p => !(decide (p.2 = "archive")))).length
            + ((selectedTabs st.db).filter (fun p => p.2 = "archive")).length := by
              rw [hcompl]
        _ = (selectedTabs st.db).length :=
              length_filter_not_add (selectedTabs st.db) (fun p => p.2 = "archive")
        _ = (autoItems st.db).length := by
              unfold autoItems
              rw [List.length_map]

theorem auto_triage_applies_suggestions_witness :
    (stAuto.db.tabs.map Tab.id).Nodup ∧
    selectedTabs stAuto.db = [(tabRL, "read-later"), (tabAct, "actionable"),
      (tabArc, "archive")] ∧
    (∃ t2 ∈ (triage_auto stAuto 50 "b9").1.db.tabs,
      t2.id = tabArc.id ∧ t2.category = some "archive" ∧ t2.triagedAt = some 50 ∧
      t2.url ∈ (triage_auto stAuto 50 "b9").1.pendingClose) ∧
    (∃ t2 ∈ (triage_auto stAuto 50 "b9").1.db.tabs,
      t2.id = tabAct.id ∧ t2.starred = true) ∧
    (triage_auto stAuto 50 "b9").1.pendingClose.Nodup ∧
    (triage_auto stAuto 50 "b9").2.saved = 2 ∧
    (triage_auto stAuto 50 "b9").2.starred = 1 ∧
    (triage_auto stAuto 50 "b9").2.archived = 1 ∧
    (triage_auto emptyState 50 "b9").2.batchId = none := by
  have h := auto_triage_applies_suggestions stAuto 50 "b9" (by decide)
  have harc := h.2.1 (tabArc, "archive") (by decide)
  have hact := h.2.1 (tabAct, "actionable") (by decide)
  obtain ⟨t2, ht2mem, ht2id, ht2cat, ht2tat, _, ht2url⟩ := harc
  obtain ⟨t3, ht3mem, ht3id, _, _, ht3star, _⟩ := hact
  have hcounts := h.2.2.2
  have hempty := (auto_triage_applies_suggestions emptyState 50 "b9" (by decide)).1 rfl
  refine ⟨by decide, by decide,
    ⟨t2, ht2mem, ht2id, ht2cat, ht2tat, ht2url rfl⟩,
    ⟨t3, ht3mem, ht3id, ht3star rfl⟩,
    h.2.2.1 (by decide), ?_, ?_, ?_, by rw [hempty]⟩
  · rw [hcounts.1]
    decide
  · rw [hcounts.2.1]
    decide
  · rw [hcounts.2.2.1]
    decide

-- ── Undo machinery ─────────────────────────────────────────────────────

theorem restoreEntry_id (e : PreState) (t : Tab) : (restoreEntry e t).id = t.id := by
  unfold restoreEntry
  by_cases h : (t.id == e.tabId) = true
  · rw [if_pos h]
  · rw [if_neg h]

theorem restoreEntry_url (e : PreState) (t : Tab) : (restoreEntry e t).url = t.url := by
  unfold restoreEntry
  by_cases h : (t.id == e.tabId) = true
  · rw [if_pos h]
  · rw [if_neg h]

theorem undoStep_eq (db : DB) (pending : List String) (e : PreState) :
    undoStep (db, pending) e
      = ({ db with tabs := db.tabs.map (restoreEntry e) },
         match lookupTab { db with tabs := db.tabs.map (restoreEntry e) } e.tabId with
         | some t => pending.erase t.url
         | none => pending) := rfl

theorem undoFold_db (es : List PreState) (db : DB) (pending : List String) :
    (es.foldl undoStep (db, pending)).1
      = { db with tabs :=
          db.tabs.map (fun t => es.foldl (fun t e => restoreEntry e t) t) } := by
  induction es generalizing db pending with
  | nil => simp
  | cons e rest ih =>
    simp only [List.foldl_cons]
    have hstep : undoStep (db, pending) e
        = ({ db with tabs := db.tabs.map (restoreEntry e) },
           (undoStep (db, pending) e).2) := rfl
    rw [hstep, ih]
    simp [List.map_map, Function.comp_def]

theorem undoFold_pending_sublist (es : List PreState) (db : DB)
    (pending : List String) :
    (es.foldl undoStep (db, pending)).2.Sublist pending := by
  induction es generalizing db pending with
  | nil => exact List.Sublist.refl pending
  | cons e rest ih =>
    simp only [List.foldl_cons]
    rw [undoStep_eq]
    cases hlk : lookupTab { db with tabs := db.tabs.map (restoreEntry e) } e.tabId with
    | none =>
      simp only []
      exact ih _ pending
    | some t =>
      simp only []
      exact (ih _ (pending.erase t.url)).trans (List.erase_sublist t.url pending)

theorem undoFold_removes_url (es : List PreState) (db : DB) (pending : List String)
    (hnd : (db.tabs.map Tab.id).Nodup) (hpnd : pending.Nodup)
    (e : PreState) (t : Tab) (he : e ∈ es) (ht : t ∈ db.tabs) (hid : t.id = e.tabId) :
    t.url ∉ (es.foldl undoStep (db, pending)).2 := by
  induction es generalizing db pending t with
  | nil => cases he
  | cons e' rest ih =>
    simp only [List.foldl_cons]
    rw [undoStep_eq]
    have hids : ({ db with tabs := db.tabs.map (restoreEntry e') } : DB).tabs.map Tab.id
        = db.tabs.map Tab.id := by
      simp only [List.map_map]
      exact List.map_congr_left (fun t _ => restoreEntry_id e' t)
    have hnd2 : (({ db with tabs := db.tabs.map (restoreEntry e') } : DB).tabs.map
        Tab.id).Nodup := by
      rw [hids]
      exact hnd
    have ht2 : restoreEntry e' t ∈
        ({ db with tabs := db.tabs.map (restoreEntry e') } : DB).tabs :=
      List.mem_map_of_mem (restoreEntry e') ht
    rcases List.mem_cons.mp he with rfl | hrest
    · -- this entry erases the url now; later steps only shrink the list
      have hlk : lookupTab { db with tabs := db.tabs.map (restoreEntry e) } e.tabId
          = some (restoreEntry e t) := by
        unfold lookupTab
        show (db.tabs.map (restoreEntry e)).find? (fun u => u.id == e.tabId) = _
        rw [← hid]
        rw [find?_map_comm (restoreEntry e) t.id (restoreEntry_id e) db.tabs]
        rw [find?_id_of_nodup db.tabs t hnd ht]
        rfl
      rw [hlk]
      simp only [restoreEntry_url]
      intro hmem
      have hmem2 : t.url ∈ pending.erase t.url :=
        (undoFold_pending_sublist rest _ (pending.erase t.url)).subset hmem
      exact hpnd.not_mem_erase hmem2
    · -- the entry is handled later in the fold
      have hid2 : (restoreEntry e' t).id = e.tabId := by
        rw [restoreEntry_id]
        exact hid
      cases hlk : lookupTab { db with tabs := db.tabs.map (restoreEntry e') } e'.tabId with
      | none =>
        simp only []
        have := ih ({ db with tabs := db.tabs.map (restoreEntry e') })
          pending hnd2 hpnd (restoreEntry e' t) hrest ht2 hid2
        rw [restoreEntry_url] at this
        exact this
      | some u =>
        simp only []
        have := ih ({ db with tabs := db.tabs.map (restoreEntry e') })
          (pending.erase u.url) hnd2 (hpnd.erase u.url) (restoreEntry e' t)
          hrest ht2 hid2
        rw [restoreEntry_url] at this
        exact this

theorem foldl_restore_not_mem (es : List PreState) (t : Tab)
    (h : ∀ e ∈ es, e.tabId ≠ t.id) :
    es.foldl (fun t e => restoreEntry e t) t = t := by
  induction es with
  | nil => rfl
  | cons e rest ih =>
    simp only [List.foldl_cons]
    have hstep : restoreEntry e t = t := by
      unfold restoreEntry
      have hne : (t.id == e.tabId) = false := by
        simp only [beq_eq_false_iff_ne]
        exact fun heq => h e (List.mem_cons_self e rest) heq.symm
      rw [hne]
      rfl
    rw [hstep]
    exact ih (fun j hj => h j (List.mem_cons_of_mem e hj))

theorem foldl_restore_mem (pre post : List PreState) (e : PreState) (t : Tab)
    (hpre : ∀ j ∈ pre, j.tabId ≠ t.id) (hpost : ∀ j ∈ post, j.tabId ≠ t.id)
    (hid : e.tabId = t.id) :
    (pre ++ e :: post).foldl (fun t e => restoreEntry e t) t
      = { t with category := e.category, starred := e.starred,
                 triagedAt := e.triagedAt } := by
  rw [List.foldl_append, foldl_restore_not_mem pre t hpre]
  simp only [List.foldl_cons]
  have hstep : restoreEntry e t
      = { t with category := e.category, starred := e.starred,
                 triagedAt := e.triagedAt } := by
    unfold restoreEntry
    have hbeq : (t.id == e.tabId) = true := by simp [hid]
    rw [hbeq]
    rfl
  rw [hstep]
  exact foldl_restore_not_mem post _ (fun j hj => hpost j hj)

theorem lookupKey_dictDrop {β : Type} (l : List (String × β)) (k : String) :
    lookupKey k (dictDrop l k) = none := by
  unfold dictDrop
  induction l with
  | nil => rfl
  | cons p rest ih =>
    rw [List.filter_cons]
    by_cases hp : p.1 = k
    · have hd : (decide (p.1 ≠ k)) = false := by simp [hp]
      rw [hd]
      simp only [Bool.false_eq_true, if_false]
      exact ih
    · have hd : (decide (p.1 ≠ k)) = true := by simp [hp]
      rw [hd]
      simp only [if_true]
      unfold lookupKey
      rw [if_neg hp]
      exact ih

theorem lookupKey_filter {β : Type} (p : String × β → Bool) (l : List (String × β))
    (k : String) (v : β) (h : lookupKey k (l.filter p) = some v) :
    p (k, v) = true := by
  induction l with
  | nil => cases h
  | cons q rest ih =>
    rw [List.filter_cons] at h
    by_cases hq : p q = true
    · rw [if_pos hq] at h
      unfold lookupKey at h
      by_cases hk : q.1 = k
      · rw [if_pos hk] at h
        obtain rfl := Option.some_inj.mp h
        rw [← hk]
        exact hq
      · rw [if_neg hk] at h
        exact ih h
    · rw [if_neg hq] at h
      exact ih h

theorem undo_not_found (st : ServerState) (bid : String)
    (h : lookupKey bid st.undoBuffer = none) :
    triage_auto_undo st (some bid) = (st, UndoOutcome.notFound) := by
  unfold triage_auto_undo
  simp only []
  by_cases hb : bid = ""
  · rw [if_pos hb]
  · rw [if_neg hb, h]

-- ── C5: undo exactness and single use ──────────────────────────────────

/-- C5: undoing a batch present in the undo buffer restores every
snapshotted tab's `category`, `starred` and `triagedAt` to exactly their
pre-batch values, removes each such tab's URL from the pending-close list,
reports one restoration per snapshot entry, and deletes the batch, so a
second undo with the same batch id fails not-found without side effects. -/
theorem undo_restores_and_single_use :
    ∀ (st : ServerState) (bid : String) (batch : UndoBatch),
      bid ≠ "" →
      lookupKey bid st.undoBuffer = some batch →
      (st.db.tabs.map Tab.id).Nodup →
      (batch.preState.map PreState.tabId).Nodup →
      st.pendingClose.Nodup →
      ((triage_auto_undo st (some bid)).2
          = UndoOutcome.undone batch.preState.length ∧
      (∀ e ∈ batch.preState, ∀ t ∈ st.db.tabs, t.id = e.tabId →
        { t with category := e.category, starred := e.starred,
                 triagedAt := e.triagedAt }
            ∈ (triage_auto_undo st (some bid)).1.db.tabs ∧
        t.url ∉ (triage_auto_undo st (some bid)).1.pendingClose) ∧
      lookupKey bid (triage_auto_undo st (some bid)).1.undoBuffer = none ∧
      (triage_auto_undo (triage_auto_undo st (some bid)).1 (some bid))
          = ((triage_auto_undo st (some bid)).1, UndoOutcome.notFound)) := by
  intro st bid batch hbid hlk hnd hbnd hpnd
  have hundo : triage_auto_undo st (some bid)
      = ({ st with
            db := (batch.preState.foldl undoStep (st.db, st.pendingClose)).1
            pendingClose := (batch.preState.foldl undoStep (st.db, st.pendingClose)).2
            undoBuffer := dictDrop st.undoBuffer bid },
          UndoOutcome.undone batch.preState.length) := by
    unfold triage_auto_undo
    simp only []
    rw [if_neg hbid, hlk]
  have hdrop : lookupKey bid (triage_auto_undo st (some bid)).1.undoBuffer = none := by
    rw [hundo]
    exact lookupKey_dictDrop st.undoBuffer bid
  refine ⟨by rw [hundo], ?_, hdrop, ?_⟩
  · intro e he t ht hid
    constructor
    · rw [hundo]
      show _ ∈ (batch.preState.foldl undoStep (st.db, st.pendingClose)).1.tabs
      rw [undoFold_db]
      obtain ⟨pre, post, hdecomp⟩ := List.append_of_mem he
      rw [hdecomp] at hbnd
      obtain ⟨hpre, hpost⟩ := nodup_split_ne PreState.tabId pre post e hbnd
      have hG : batch.preState.foldl (fun t e => restoreEntry e t) t
          = { t with category := e.category, starred := e.starred,
                     triagedAt := e.triagedAt } := by
        rw [hdecomp]
        apply foldl_restore_mem
        · intro j hj heq
          exact hpre j hj (by rw [heq, hid])
        · intro j hj heq
          exact hpost j hj (by rw [heq, hid])
        · exact hid.symm
      exact List.mem_map.mpr ⟨t, ht, hG⟩
    · rw [hundo]
      exact undoFold_removes_url batch.preState st.db st.pendingClose hnd hpnd
        e t he ht hid
  · exact undo_not_found (triage_auto_undo st (some bid)).1 bid hdrop

theorem undo_restores_and_single_use_witness :
    lookupKey "bat1" stUndo.undoBuffer = some { preState := [preEx], timestamp := 100 } ∧
    (triage_auto_undo stUndo (some "bat1")).2 = UndoOutcome.undone 1 ∧
    { tabActDone with category := preEx.category, starred := preEx.starred,
                      triagedAt := preEx.triagedAt }
        ∈ (triage_auto_undo stUndo (some "bat1")).1.db.tabs ∧
    tabActDone.url ∉ (triage_auto_undo stUndo (some "bat1")).1.pendingClose ∧
    (triage_auto_undo (triage_auto_undo stUndo (some "bat1")).1 (some "bat1")).2
        = UndoOutcome.notFound := by
  have h := undo_restores_and_single_use stUndo "bat1"
    { preState := [preEx], timestamp := 100 }
    (by decide) (by decide) (by decide) (by decide) (by decide)
  have he := h.2.1 preEx (by decide) tabActDone (by decide) (by decide)
  exact ⟨by decide, h.1, he.1, he.2, by rw [h.2.2.2]⟩

-- ── C6: undo of an absent or expired batch id ──────────────────────────

/-- C6 as stated is false: expiry is never checked at undo time. A batch
whose timestamp is more than 5 minutes old but which was never purged (no
intervening auto-triage ran) is still found and undone with side effects. -/
theorem undo_expired_batch_succeeds :
    lookupKey "b1" stExpired.undoBuffer = some batchOld ∧
    batchOld.timestamp < 400 - 300 ∧
    (triage_auto_undo stExpired (some "b1")).2 = UndoOutcome.undone 1 ∧
    (triage_auto_undo stExpired (some "b1")).1 ≠ stExpired := by decide

/-- C6 amended: an undo request whose batch id is missing or not present in
the undo buffer fails not-found with no side effects; the 5-minute TTL is
enforced only lazily — the purge runs inside an auto-triage invocation with
a nonempty selection, after which every batch still in the buffer is
unexpired — so an expired but unpurged batch still undoes successfully. -/
theorem undo_absent_not_found_lazy_ttl :
    (∀ st : ServerState, triage_auto_undo st none = (st, UndoOutcome.notFound)) ∧
    (∀ st : ServerState, triage_auto_undo st (some "") = (st, UndoOutcome.notFound)) ∧
    (∀ (st : ServerState) (bid : String),
      lookupKey bid st.undoBuffer = none →
      triage_auto_undo st (some bid) = (st, UndoOutcome.notFound)) ∧
    (∀ (st : ServerState) (now : Int) (nb bid : String) (batch : UndoBatch),
      selectedTabs st.db ≠ [] →
      lookupKey bid (triage_auto st now nb).1.undoBuffer = some batch →
      ¬ (batch.timestamp < now - 300)) := by
  refine ⟨fun st => rfl, ?_, undo_not_found, ?_⟩
  · intro st
    unfold triage_auto_undo
    simp
  · intro st now nb bid batch hsel hlk
    have hne : (selectedTabs st.db).isEmpty = false := by
      cases h : selectedTabs st.db
      · exact absurd h hsel
      · rfl
    have hbuf : (triage_auto st now nb).1.undoBuffer
        = purgeUndo (dictSet st.undoBuffer nb ⟨autoPreState st.db, now⟩) now := by
      unfold triage_auto
      rw [hne]
      rfl
    rw [hbuf] at hlk
    unfold purgeUndo at hlk
    have := lookupKey_filter _ _ bid batch hlk
    simpa using this

theorem undo_absent_not_found_lazy_ttl_witness :
    triage_auto_undo emptyState none = (emptyState, UndoOutcome.notFound) ∧
    lookupKey "zz" emptyState.undoBuffer = none ∧
    triage_auto_undo emptyState (some "zz") = (emptyState, UndoOutcome.notFound) ∧
    selectedTabs stAuto.db ≠ [] ∧
    lookupKey "nb" (triage_auto stAuto 400 "nb").1.undoBuffer
        = some { preState := autoPreState stAuto.db, timestamp := 400 } ∧
    ¬ ((400 : Int) < 400 - 300) := by
  refine ⟨undo_absent_not_found_lazy_ttl.1 emptyState, by decide,
    undo_absent_not_found_lazy_ttl.2.2.1 emptyState "zz" (by decide),
    by decide, by decide, ?_⟩
  exact undo_absent_not_found_lazy_ttl.2.2.2 stAuto 400 "nb" "nb"
    { preState := autoPreState stAuto.db, timestamp := 400 }
    (by decide) (by decide)

-- ── Invariant machinery (C7) ───────────────────────────────────────────

theorem lookupKey_mem {β : Type} (l : List (String × β)) (k : String) (v : β)
    (h : lookupKey k l = some v) : (k, v) ∈ l := by
  induction l with
  | nil => cases h
  | cons p rest ih =>
    unfold lookupKey at h
    by_cases hk : p.1 = k
    · rw [if_pos hk] at h
      obtain rfl := Option.some_inj.mp h
      exact List.mem_cons.mpr (Or.inl (by rw [← hk]))
    · rw [if_neg hk] at h
      exact List.mem_cons_of_mem p (ih h)

theorem undo_found_eq (st : ServerState) (bid : String) (batch : UndoBatch)
    (hbid : bid ≠ "") (hlk : lookupKey bid st.undoBuffer = some batch) :
    triage_auto_undo st (some bid)
      = ({ st with
            db := (batch.preState.foldl undoStep (st.db, st.pendingClose)).1
            pendingClose := (batch.preState.foldl undoStep (st.db, st.pendingClose)).2
            undoBuffer := dictDrop st.undoBuffer bid },
          UndoOutcome.undone batch.preState.length) := by
  unfold triage_auto_undo
  simp only []
  rw [if_neg hbid, hlk]

theorem DBInv_map (db : DB) (f : Tab → Tab) (h : DBInv db)
    (hf : ∀ t ∈ db.tabs, TabInv t → TabInv (f t)) :
    DBInv { db with tabs := db.tabs.map f } := by
  intro t ht
  obtain ⟨u, hu, rfl⟩ := List.mem_map.mp ht
  exact hf u hu (h u hu)

theorem DBInv_foldl {α : Type} (step : DB → α → DB) (items : List α) (db : DB)
    (hstep : ∀ d a, DBInv d → DBInv (step d a)) (h : DBInv db) :
    DBInv (items.foldl step db) := by
  induction items generalizing db with
  | nil => exact h
  | cons a rest ih => exact ih _ (hstep db a h)

theorem TabInv_applyTriageUpdates (item : TriageItem) (now : Int) (t : Tab)
    (h : TabInv t) : TabInv (applyTriageUpdates item now t) := by
  cases hc : item.category with
  | none =>
    obtain ⟨h1, h2⟩ := applyTriageUpdates_category_none item now t hc
    unfold TabInv at h ⊢
    rw [h1, h2]
    exact h
  | some c =>
    obtain ⟨h1, h2⟩ := applyTriageUpdates_category_some item now t c hc
    unfold TabInv
    rw [h1, h2]
    constructor <;> intro hx <;> cases hx

theorem TabInv_triageTabStep (item : TriageItem) (now : Int) (t : Tab)
    (h : TabInv t) : TabInv (triageTabStep item now t) := by
  unfold triageTabStep
  by_cases hb : (t.id == item.tabId) = true
  · rw [if_pos hb]
    exact TabInv_applyTriageUpdates item now t h
  · rw [if_neg hb]
    exact h

theorem TabInv_foldl_triageTabStep (items : List TriageItem) (now : Int) (t : Tab)
    (h : TabInv t) :
    TabInv (items.foldl (fun t i => triageTabStep i now t) t) := by
  induction items generalizing t with
  | nil => exact h
  | cons i rest ih =>
    simp only [List.foldl_cons]
    exact ih _ (TabInv_triageTabStep i now t h)

theorem TabInv_restoreEntry (e : PreState) (t : Tab)
    (he : e.triagedAt = none ↔ e.category = none) (h : TabInv t) :
    TabInv (restoreEntry e t) := by
  unfold restoreEntry
  by_cases hb : (t.id == e.tabId) = true
  · rw [if_pos hb]
    exact he
  · rw [if_neg hb]
    exact h

theorem TabInv_foldl_restore (es : List PreState)
    (hes : ∀ e ∈ es, (e.triagedAt = none ↔ e.category = none)) :
    ∀ t : Tab, TabInv t → TabInv (es.foldl (fun t e => restoreEntry e t) t) := by
  induction es with
  | nil => exact fun t h => h
  | cons e rest ih =>
    intro t h
    simp only [List.foldl_cons]
    exact ih (fun j hj => hes j (List.mem_cons_of_mem e hj)) (restoreEntry e t)
      (TabInv_restoreEntry e t (hes e (List.mem_cons_self e rest)) h)

-- ── C7: triaged_at is non-null iff a category has been set ─────────────

/-- C7: the invariant "`triaged_at` is non-null iff a category has been
set" is preserved by every operation: capture creates tabs with both null,
every category write through `_triage_one` (single, bulk, auto) stamps
`triaged_at` alongside, undo restores the pair together from a snapshot
that satisfied the invariant, and star toggles, summarization persists and
cluster writes touch neither field. -/
theorem triaged_iff_categorized_invariant :
    ∀ st : ServerState, StateInv st →
      (∀ (env : Env) (req : CaptureReq) (now : Int),
        StateInv (capture_tabs env st req now).1) ∧
      (∀ (item : TriageItem) (now : Int),
        StateInv { st with db := (triage_one st.db item now).1 }) ∧
      (∀ (items : List TriageItem) (now : Int),
        StateInv { st with db := triage_bulk st.db items now }) ∧
      (∀ (now : Int) (bid : String), StateInv (triage_auto st now bid).1) ∧
      (∀ bid : Option String, StateInv (triage_auto_undo st bid).1) ∧
      (∀ (tid : Nat) (b : Bool), StateInv { st with db := toggle_star st.db tid b }) ∧
      (∀ (tabIds : List Nat) (oracle : Tab → SummaryResult),
        StateInv { st with db := summarizePhase st.db tabIds oracle }) ∧
      (∀ items : List (Nat × SummaryResult),
        StateInv { st with db := batch_re_summarize st.db items }) ∧
      (∀ (sid : Nat) (raw : Option (List RawCluster)),
        StateInv { st with db := clusteringPhase st.db sid raw }) := by
  intro st hInv
  obtain ⟨hdb, hbuf⟩ := hInv
  refine ⟨?_, ?_, ?_, ?_, ?_, ?_, ?_, ?_, ?_⟩
  · -- capture
    intro env req now
    obtain ⟨_, _, ⟨new, htabs, _, hprops⟩, _⟩ :=
      captureLoop_spec env now st.nextSessionId req.tabs (captureInit st req)
    have hloopinv : ∀ t ∈ (captureLoop env st req now).db.tabs, TabInv t := by
      intro t ht
      rw [show (captureLoop env st req now).db.tabs
          = (captureInit st req).db.tabs ++ new from htabs] at ht
      rcases List.mem_append.mp ht with h | h
      · exact hdb t h
      · obtain ⟨_, _, hcat, htat, _⟩ := hprops t h
        unfold TabInv
        rw [hcat, htat]
        exact ⟨fun _ => rfl, fun _ => rfl⟩

    unfold capture_tabs
    split
    · exact ⟨hloopinv, hbuf⟩
    · exact ⟨hloopinv, hbuf⟩
  · -- single triage
    intro item now
    refine ⟨?_, hbuf⟩
    rw [triage_one_db_eq]
    exact DBInv_map st.db (triageTabStep item now) hdb
      (fun t _ => TabInv_triageTabStep item now t)
  · -- bulk triage
    intro items now
    refine ⟨?_, hbuf⟩
    rw [triage_bulk_eq]
    exact DBInv_map st.db _ hdb
      (fun t _ => TabInv_foldl_triageTabStep items now t)
  · -- auto triage
    intro now bid
    unfold triage_auto
    split
    · exact ⟨hdb, hbuf⟩
    · refine ⟨?_, ?_⟩
      · show DBInv (autoDB st.db now)
        unfold autoDB
        rw [triage_bulk_eq]
        exact DBInv_map st.db _ hdb
          (fun t _ => TabInv_foldl_triageTabStep (autoItems st.db) now t)
      · show BufInv (purgeUndo (dictSet st.undoBuffer bid ⟨autoPreState st.db, now⟩) now)
        intro q hq e he
        have hq2 := (List.mem_filter.mp hq).1
        unfold dictSet at hq2
        rcases List.mem_append.mp hq2 with h | h
        · exact hbuf q (List.mem_filter.mp h).1 e he
        · obtain rfl := List.mem_singleton.mp h
          obtain ⟨p, hp, rfl⟩ := List.mem_map.mp he
          obtain ⟨hmem, hta, _⟩ := selectedTabs_mem st.db p hp
          show p.1.triagedAt = none ↔ p.1.category = none
          exact hdb p.1 hmem
  · -- undo
    intro bid
    cases bid with
    | none => exact ⟨hdb, hbuf⟩
    | some b =>
      by_cases hb : b = ""
      · subst hb
        rw [show triage_auto_undo st (some "") = (st, UndoOutcome.notFound) from by
          unfold triage_auto_undo
          simp]
        exact ⟨hdb, hbuf⟩
      · cases hlk : lookupKey b st.undoBuffer with
        | none =>
          rw [undo_not_found st b hlk]
          exact ⟨hdb, hbuf⟩
        | some batch =>
          rw [undo_found_eq st b batch hb hlk]
          have hbatch : ∀ e ∈ batch.preState,
              (e.triagedAt = none ↔ e.category = none) :=
            hbuf (b, batch) (lookupKey_mem st.undoBuffer b batch hlk)
          refine ⟨?_, ?_⟩
          · show DBInv (batch.preState.foldl undoStep (st.db, st.pendingClose)).1
            rw [undoFold_db]
            exact DBInv_map st.db _ hdb
              (fun t _ => TabInv_foldl_restore batch.preState hbatch t)
          · show BufInv (dictDrop st.undoBuffer b)
            intro q hq e he
            exact hbuf q (List.mem_filter.mp hq).1 e he
  · -- star toggle
    intro tid b
    refine ⟨?_, hbuf⟩
    unfold toggle_star
    apply DBInv_map st.db _ hdb
    intro t _ h
    by_cases hb : (t.id == tid) = true
    · rw [if_pos hb]
      exact h
    · rw [if_neg hb]
      exact h
  · -- capture summarization phase
    intro tabIds oracle
    refine ⟨?_, hbuf⟩
    unfold summarizePhase
    apply DBInv_foldl _ tabIds st.db ?_ hdb
    intro d tid hd
    cases lookupTab d tid with
    | none => exact hd
    | some row =>
      unfold summarizeStep
      apply DBInv_map d _ hd
      intro t _ h
      by_cases hb : (t.id == tid) = true
      · rw [if_pos hb]
        exact h
      · rw [if_neg hb]
        exact h
  · -- batch re-summarize
    intro items
    refine ⟨?_, hbuf⟩
    unfold batch_re_summarize
    apply DBInv_foldl _ items st.db ?_ hdb
    intro d a hd
    unfold reSummarizeStep
    apply DBInv_map d _ hd
    intro t _ h
    by_cases hb : (t.id == a.1) = true
    · rw [if_pos hb]
      exact h
    · rw [if_neg hb]
      exact h
  · -- clustering phase
    intro sid raw
    refine ⟨?_, hbuf⟩
    show DBInv (clusteringPhase st.db sid raw)
    unfold clusteringPhase
    simp only []
    split
    · exact hdb
    · apply DBInv_foldl applyClusterAssign _ st.db ?_ hdb
      intro d c hd
      unfold applyClusterAssign
      apply DBInv_map d _ hd
      intro t _ h
      by_cases hb : (t.id == c.tabId) = true
      · rw [if_pos hb]
        exact h
      · rw [if_neg hb]
        exact h

theorem triaged_iff_categorized_invariant_witness :
    StateInv stAuto ∧
    StateInv (triage_auto stAuto 50 "w7").1 ∧
    StateInv (capture_tabs envEx stAuto ⟨none, [subEx]⟩ 1000).1 ∧
    StateInv { stAuto with db := (triage_one stAuto.db itemActEx 99).1 } := by
  have h := triaged_iff_categorized_invariant stAuto (by decide)
  exact ⟨by decide, h.2.2.2.1 50 "w7", h.1 envEx ⟨none, [subEx]⟩ 1000,
    h.2.1 itemActEx 99⟩

-- ── C10: progress endpoints for unknown session ids ────────────────────

/-- C10: a session id with no in-memory progress record gets
`{total 0, completed 0, phase done, clusters 0}` from the point query rather
than a not-found failure, and the progress stream emits that single done
record and terminates. -/
theorem progress_unknown_session_reports_done :
    (∀ (progress : List (Nat × ProgressRec)) (sid : Nat),
      lookupKey sid progress = none →
      get_capture_progress progress sid =
        { total := 0, completed := 0, phase := "done", clusters := 0 }) ∧
    (∀ polls : List (Option ProgressRec),
      streamProgress (none :: polls) =
        ([{ total := 0, completed := 0, phase := "done", clusters := 0 }], true)) := by
  constructor
  · intro progress sid h
    simp [get_capture_progress, h, doneProgress]
  · intro polls
    rfl

theorem progress_unknown_session_reports_done_witness :
    lookupKey 7 emptyState.progress = (none : Option ProgressRec) ∧
    get_capture_progress emptyState.progress 7 =
      { total := 0, completed := 0, phase := "done", clusters := 0 } ∧
    streamProgress [none] =
      ([{ total := 0, completed := 0, phase := "done", clusters := 0 }], true) :=
  ⟨rfl, progress_unknown_session_reports_done.1 emptyState.progress 7 rfl,
    progress_unknown_session_reports_done.2 []⟩

-- ── C9: clustering response filtering and application ──────────────────

/-- C9: a cluster assignment whose `tab_id` is outside the session's tab set
is silently discarded (filtering the response down to in-set entries changes
nothing, and every surviving assignment's id is in the tab set); an applied
assignment writes `cluster_id` and `cluster_label` and COALESCEs
`project_id` (an existing project wins), leaving other tabs untouched; a
failed or empty cluster response writes nothing. -/
theorem clustering_discards_foreign_ids :
    (∀ (cs : List RawCluster) (tabs : List Tab),
      parse_clusters cs tabs = parse_clusters (cs.filter (inTabSet tabs)) tabs) ∧
    (∀ (cs : List RawCluster) (tabs : List Tab) (a : ClusterAssign),
      a ∈ parse_clusters cs tabs → a.tabId ∈ tabs.map Tab.id) ∧
    (∀ (db : DB) (c : ClusterAssign) (t : Tab), t ∈ db.tabs → t.id = c.tabId →
      { t with clusterId := some c.clusterId, clusterLabel := some c.clusterLabel,
               projectId := t.projectId <|> c.suggestedProjectId }
        ∈ (applyClusterAssign db c).tabs) ∧
    (∀ (db : DB) (c : ClusterAssign) (t : Tab), t ∈ db.tabs → t.id ≠ c.tabId →
      t ∈ (applyClusterAssign db c).tabs) ∧
    (∀ (db : DB) (sid : Nat), clusteringPhase db sid none = db) ∧
    (∀ (db : DB) (sid : Nat) (cs : List RawCluster),
      parse_clusters cs (db.tabs.filter (fun t => t.sessionId == sid)) = [] →
      clusteringPhase db sid (some cs) = db) := by
  refine ⟨?_, ?_, ?_, ?_, ?_, ?_⟩
  · intro cs tabs
    unfold parse_clusters
    apply filterMap_filter_eq
    intro c hc
    cases hct : c.tabId with
    | none => rfl
    | some tid =>
      unfold inTabSet at hc
      rw [hct] at hc
      simp only [] at hc
      simp only [hct, hc, Bool.false_eq_true, if_false]
  · intro cs tabs a ha
    simp only [parse_clusters, List.mem_filterMap] at ha
    obtain ⟨c, _, hc⟩ := ha
    cases hct : c.tabId with
    | none => simp [hct] at hc
    | some tid =>
      simp only [hct] at hc
      by_cases hmem : ((tabs.map Tab.id).contains tid) = true
      · rw [if_pos hmem] at hc
        obtain rfl : a = _ := (Option.some_inj.mp hc).symm
        simpa using hmem
      · rw [if_neg hmem] at hc
        cases hc
  · intro db c t ht hid
    have hbeq : (t.id == c.tabId) = true := by simp [hid]
    show _ ∈ db.tabs.map _
    exact List.mem_map.mpr ⟨t, ht, by simp [hbeq]⟩
  · intro db c t ht hid
    have hbeq : (t.id == c.tabId) = false := by simp [hid]
    show t ∈ db.tabs.map _
    exact List.mem_map.mpr ⟨t, ht, by simp [hbeq]⟩
  · intro db sid
    rfl
  · intro db sid cs h
    simp [clusteringPhase, h]

theorem clustering_discards_foreign_ids_witness :
    parse_clusters [{ tabId := some 99, clusterId := some "dev",
                      clusterLabel := some "Dev", suggestedProjectId := none }]
      dbTagged.tabs = [] ∧
    { tabEx with clusterId := some "dev", clusterLabel := some "Dev",
                 projectId := tabEx.projectId <|> none }
      ∈ (applyClusterAssign dbTagged
          { tabId := 1, clusterId := "dev", clusterLabel := "Dev",
            suggestedProjectId := none }).tabs ∧
    clusteringPhase dbTagged 1 none = dbTagged := by
  refine ⟨by decide, ?_, clustering_discards_foreign_ids.2.2.2.2.1 dbTagged 1⟩
  exact clustering_discards_foreign_ids.2.2.1 dbTagged
    { tabId := 1, clusterId := "dev", clusterLabel := "Dev", suggestedProjectId := none }
    tabEx (by decide) (by decide)

-- ── C8: tags COALESCE direction ────────────────────────────────────────

/-- C8 as stated is false: the batch re-summarize flow overwrites a tab's
pre-existing non-null tag set with the classifier-produced tags. -/
theorem re_summarize_overwrites_tags :
    (lookupTab dbTagged 1).map Tab.tags = some (some ["alt"]) ∧
    (lookupTab (batch_re_summarize dbTagged [(1, sumNeu)]) 1).map Tab.tags
      = some (some ["neu"]) := by decide

/-- C8 amended: only the capture enrichment phase protects a pre-existing
tag set (`COALESCE(tags, ?)`); the re-summarize/re-extract flows use
`COALESCE(?, tags)`, so classifier-produced tags overwrite a pre-existing
set there, and existing tags survive only when the classifier returns none. -/
theorem summarize_tags_coalesce_direction :
    (∀ (s : SummaryResult) (t : Tab), t.tags ≠ none →
      (persistSummaryCapture s t).tags = t.tags) ∧
    (∀ (s : SummaryResult) (t : Tab), t.tags = none →
      (persistSummaryCapture s t).tags = tagsValue s) ∧
    (∀ (s : SummaryResult) (t : Tab), tagsValue s = none →
      (persistSummaryRe s t).tags = t.tags) ∧
    (∀ (s : SummaryResult) (t : Tab), tagsValue s ≠ none →
      (persistSummaryRe s t).tags = tagsValue s) := by
  refine ⟨?_, ?_, ?_, ?_⟩
  · intro s t h
    cases ht : t.tags with
    | none => exact absurd ht h
    | some ts => simp [persistSummaryCapture, ht, Option.orElse]
  · intro s t h
    simp [persistSummaryCapture, h, Option.orElse]
  · intro s t h
    simp [persistSummaryRe, h, Option.orElse]
  · intro s t h
    cases hs : tagsValue s with
    | none => exact absurd hs h
    | some ts => simp [persistSummaryRe, hs, Option.orElse]

theorem summarize_tags_coalesce_direction_witness :
    (persistSummaryCapture sumNeu tabEx).tags = some ["alt"] ∧
    (persistSummaryRe sumNeu tabEx).tags = some ["neu"] := by
  constructor
  · have h := summarize_tags_coalesce_direction.1 sumNeu tabEx (by decide)
    rw [h]
    rfl
  · have h := summarize_tags_coalesce_direction.2.2.2 sumNeu tabEx (by decide)
    rw [h]
    rfl

end TabTriage
